import Mathlib

/-!
Verification of the graphics-shapes 2D geometry library.

This file shallowly embeds the library's data model and operations in Lean:
`Coord` (integer 2D point), the six concrete shape kinds (`Line`, `Rect`,
`Circle`, `Ellipse`, `Triangle`, `Polygon`), their point-containment,
pairwise intersection and containment predicates, the pixel rasterizers,
and the runtime shape dispatch (`ShapeBox` / `contains_shape` /
`intersects_shape`).

Modelling conventions:
* Rust `isize`/`usize` become `Int`/`Nat`.  Rust `isize` division truncates
  toward zero, so it is embedded as `Int.tdiv`; `usize` subtraction is
  embedded as truncated `Nat` subtraction (the Rust code would panic in
  debug builds on underflow; no claim below evaluates an underflowing
  input).
* `Coord::distance` computes `f64::hypot(dx, dy).round()`.  For integer
  inputs in the realistic range this is exactly the integer nearest to the
  real `sqrt(dx^2+dy^2)` (hypot is correctly rounded and the half-integer
  tie is impossible for an integer radicand), so it is embedded as the
  exact rounded integer square root `roundSqrt`.
* Trigonometric primitives (`f32` `sin`/`cos`/`atan2` composed in
  `Coord::from_angle` / `Coord::angle_to`, and the `f64` trig used by the
  ellipse discretiser and `iterate`) cannot be given an exact executable
  integer semantics; every definition that needs them takes a `TrigModel`
  argument bundling those primitives, and theorems quantify over the
  model.  Concrete evaluations only instantiate the model at arguments
  where the IEEE result is exactly determined (documented at `refTrig`).
* Exact real (`f32`/`f64`) arithmetic that is ring arithmetic plus
  division is embedded via the executable fraction type `Frac`
  (unreduced `Int` pairs); division by zero diverges from IEEE semantics
  there (documented where it can occur; no claim depends on it).
-/

namespace GShapes

/-! ## Integer square root (kernel-computable) and rounded distance -/

/-- Binary search for the floor square root: invariant `lo*lo ≤ n < (hi+1)*(hi+1)`. -/
def sqrtGo (n : Nat) : Nat → Nat → Nat → Nat
  | 0, lo, _ => lo
  | fuel+1, lo, hi =>
    if lo = hi then lo
    else
      let mid := (lo + hi + 1) / 2
      if mid * mid ≤ n then sqrtGo n fuel mid hi else sqrtGo n fuel lo (mid - 1)

/-- Floor integer square root, by kernel-reducible fuelled binary search. -/
def intSqrt (n : Nat) : Nat := sqrtGo n (n + 1) 0 n

theorem sqrtGo_spec (n : Nat) : ∀ fuel lo hi, lo * lo ≤ n → n < (hi+1) * (hi+1) →
    lo ≤ hi → hi - lo < 2 ^ fuel →
    sqrtGo n fuel lo hi * sqrtGo n fuel lo hi ≤ n ∧
      n < (sqrtGo n fuel lo hi + 1) * (sqrtGo n fuel lo hi + 1) := by
  intro fuel
  induction fuel with
  | zero =>
    intro lo hi h1 h2 h3 h4
    have : lo = hi := by omega
    subst this
    simpa [sqrtGo] using ⟨h1, h2⟩
  | succ f ih =>
    intro lo hi h1 h2 h3 h4
    by_cases heq : lo = hi
    · subst heq
      simpa [sqrtGo] using ⟨h1, h2⟩
    · have hlt : lo < hi := by omega
      by_cases hmid : ((lo + hi + 1) / 2) * ((lo + hi + 1) / 2) ≤ n
      · have := ih ((lo + hi + 1) / 2) hi hmid h2 (by omega) (by omega)
        simpa [sqrtGo, heq, hmid] using this
      · have hn : n < ((lo + hi + 1) / 2 - 1 + 1) * ((lo + hi + 1) / 2 - 1 + 1) := by
          have : (lo + hi + 1) / 2 - 1 + 1 = (lo + hi + 1) / 2 := by omega
          rw [this]; omega
        have := ih lo ((lo + hi + 1) / 2 - 1) h1 hn (by omega) (by omega)
        simpa [sqrtGo, heq, hmid] using this

theorem intSqrt_spec (n : Nat) :
    intSqrt n * intSqrt n ≤ n ∧ n < (intSqrt n + 1) * (intSqrt n + 1) := by
  have h2 : n - 0 < 2 ^ (n + 1) := by
    have := Nat.lt_two_pow n
    have : (2:Nat) ^ n ≤ 2 ^ (n+1) := Nat.pow_le_pow_right (by omega) (by omega)
    omega
  exact sqrtGo_spec n (n+1) 0 n (by omega) (by nlinarith) (by omega) h2

/-- Integer nearest to the real square root of `n` (ties cannot occur). -/
def roundSqrt (n : Nat) : Nat :=
  let s := intSqrt n
  if n ≤ s * s + s then s else s + 1

/-- Characterization of the rounded square root through pure ring arithmetic:
`round (sqrt n) ≤ m` exactly when `n ≤ m^2 + m`. -/
theorem roundSqrt_le_iff (n m : Nat) : roundSqrt n ≤ m ↔ n ≤ m * m + m := by
  obtain ⟨hs1, hs2⟩ := intSqrt_spec n
  unfold roundSqrt
  by_cases h : n ≤ intSqrt n * intSqrt n + intSqrt n
  · simp only [h, if_pos]
    constructor
    · intro hm
      calc n ≤ intSqrt n * intSqrt n + intSqrt n := h
        _ ≤ m * m + m := by nlinarith
    · intro hm
      by_contra hc
      have : m + 1 ≤ intSqrt n := by omega
      nlinarith
  · simp only [h, if_neg, not_false_iff]
    constructor
    · intro hm
      have : n < (intSqrt n + 1) * (intSqrt n + 1) := hs2
      nlinarith
    · intro hm
      by_contra hc
      have hsm : intSqrt n ≥ m := by omega
      nlinarith

/-! ## Coord: the integer 2D point (src/coord.rs) -/

/-- Integer 2D coordinate, mirroring `Coord { x: isize, y: isize }`. -/
structure Coord where
  x : Int
  y : Int
deriving DecidableEq, Repr

/-- Component-wise addition (`impl Add for Coord`). -/
def Coord.add (a b : Coord) : Coord := ⟨a.x + b.x, a.y + b.y⟩

/-- Component-wise subtraction (`impl Sub for Coord`). -/
def Coord.sub (a b : Coord) : Coord := ⟨a.x - b.x, a.y - b.y⟩

/-- Component-wise negation (`impl Neg for Coord`). -/
def Coord.neg (a : Coord) : Coord := ⟨-a.x, -a.y⟩

/-- Rounded Euclidean distance, mirroring
`Coord::distance = hypot((rhs.x-self.x) as f64, (rhs.y-self.y) as f64).round() as usize`:
the exact integer nearest to `sqrt(dx^2+dy^2)`. -/
def Coord.distance (a b : Coord) : Nat :=
  roundSqrt (((b.x - a.x) * (b.x - a.x) + (b.y - a.y) * (b.y - a.y)).toNat)

/-- Truncating midpoint, mirroring `Coord::mid_point` (`(x1+x2)/2` with Rust
`isize` division, which truncates toward zero). -/
def Coord.midPoint (a b : Coord) : Coord :=
  ⟨Int.tdiv (a.x + b.x) 2, Int.tdiv (a.y + b.y) 2⟩

/-- Cross product `self.x*rhs.y - self.y*rhs.x` (`Coord::cross_product`). -/
def Coord.crossProduct (a b : Coord) : Int := a.x * b.y - a.y * b.x

/-- Collinearity test `Coord::are_collinear`. -/
def Coord.areCollinear (a b c : Coord) : Bool :=
  decide ((b.x - a.x) * (c.y - a.y) = (c.x - a.x) * (b.y - a.y))

/-- Bounding-box betweenness test `Coord::is_between`. -/
def Coord.isBetween (s a b : Coord) : Bool :=
  (decide (a.x ≤ s.x) && decide (s.x ≤ b.x) && (decide (a.y ≤ s.y) && decide (s.y ≤ b.y)))
    || (decide (b.x ≤ s.x) && decide (s.x ≤ a.x) && (decide (b.y ≤ s.y) && decide (s.y ≤ a.y)))

theorem Coord.distance_comm (a b : Coord) : Coord.distance a b = Coord.distance b a := by
  unfold Coord.distance
  ring_nf

/-! ## Rect (src/rect.rs) -/

/-- Axis-aligned rectangle storing the two constructor corners verbatim
(`Rect { top_left, bottom_right }`). -/
structure Rect where
  topLeft : Coord
  bottomRight : Coord
deriving DecidableEq, Repr

/-- Rust `Rect::new` stores both corners unchanged. -/
def Rect.new (tl br : Coord) : Rect := ⟨tl, br⟩

/-- Rust `Rect::left`: min of the two stored x values. -/
def Rect.left (r : Rect) : Int := min r.topLeft.x r.bottomRight.x

/-- Rust `Rect::right`: max of the two stored x values. -/
def Rect.right (r : Rect) : Int := max r.topLeft.x r.bottomRight.x

/-- Rust `Rect::top`: min of the two stored y values. -/
def Rect.top (r : Rect) : Int := min r.topLeft.y r.bottomRight.y

/-- Rust `Rect::bottom`: max of the two stored y values. -/
def Rect.bottom (r : Rect) : Int := max r.topLeft.y r.bottomRight.y

/-- Rust `Rect::width = (bottom_right.x - top_left.x).unsigned_abs()`. -/
def Rect.width (r : Rect) : Nat := (r.bottomRight.x - r.topLeft.x).natAbs

/-- Rust `Rect::height = (bottom_right.y - top_left.y).unsigned_abs()`. -/
def Rect.height (r : Rect) : Nat := (r.bottomRight.y - r.topLeft.y).natAbs

/-- Rust `Rect::center = top_left.mid_point(bottom_right)`. -/
def Rect.center (r : Rect) : Coord := Coord.midPoint r.topLeft r.bottomRight

/-- Rust `Rect::contains`: `(left..=right).contains(x) && (top..=bottom).contains(y)` —
inclusive ranges on both axes. -/
def Rect.containsPt (r : Rect) (p : Coord) : Bool :=
  (decide (r.left ≤ p.x) && decide (p.x ≤ r.right))
    && (decide (r.top ≤ p.y) && decide (p.y ≤ r.bottom))

/-- Rust `Rect::points` returns the two stored corners. -/
def Rect.points (r : Rect) : List Coord := [r.topLeft, r.bottomRight]

/-- Rust `Rect::from_points` rebuilds from the first two points. -/
def Rect.fromPoints (pts : List Coord) : Rect :=
  Rect.new (pts.getD 0 ⟨0, 0⟩) (pts.getD 1 ⟨0, 0⟩)

/-- Rust `Rect::outline_pixels`: the two horizontal edges and two vertical edges,
collected into a deduplicated unordered set (the Rust code inserts into a
hash set and returns its elements in arbitrary order). -/
def Rect.outlineF (r : Rect) : Finset Coord :=
  ((Finset.Icc r.left r.right).image fun x => (⟨x, r.top⟩ : Coord))
    ∪ ((Finset.Icc r.left r.right).image fun x => (⟨x, r.bottom⟩ : Coord))
    ∪ ((Finset.Icc r.top r.bottom).image fun y => (⟨r.left, y⟩ : Coord))
    ∪ ((Finset.Icc r.top r.bottom).image fun y => (⟨r.right, y⟩ : Coord))

/-- Rust `Rect::filled_pixels`: every coordinate of the bounding box, as a set. -/
def Rect.filledF (r : Rect) : Finset Coord :=
  (Finset.Icc r.left r.right ×ˢ Finset.Icc r.top r.bottom).image
    fun p => (⟨p.1, p.2⟩ : Coord)

theorem Rect.outlineF_congr (r₁ r₂ : Rect) (h1 : r₁.left = r₂.left)
    (h2 : r₁.right = r₂.right) (h3 : r₁.top = r₂.top) (h4 : r₁.bottom = r₂.bottom) :
    r₁.outlineF = r₂.outlineF := by
  simp only [Rect.outlineF, h1, h2, h3, h4]

theorem Rect.filledF_congr (r₁ r₂ : Rect) (h1 : r₁.left = r₂.left)
    (h2 : r₁.right = r₂.right) (h3 : r₁.top = r₂.top) (h4 : r₁.bottom = r₂.bottom) :
    r₁.filledF = r₂.filledF := by
  simp only [Rect.filledF, h1, h2, h3, h4]

/-- C1: the claim asserts `Rect::new((10,10),(20,20)).contains((20,20))` is
`false` (half-open far edge); the code returns `true` at that corner, because
`Rect::contains` uses inclusive ranges on all four edges. -/
theorem c1_counterexample :
    Rect.containsPt (Rect.new ⟨10, 10⟩ ⟨20, 20⟩) ⟨20, 20⟩ = true := by decide

/-- C1 (amended): for `Rect::new((10,10),(20,20))`, `contains((15,15))` and
`contains((20,20))` are both `true`: `Rect::contains` is boundary-inclusive
(closed) on all four edges, holding exactly when
`left ≤ x ≤ right ∧ top ≤ y ≤ bottom`. -/
theorem c1_rect_contains_inclusive :
    Rect.containsPt (Rect.new ⟨10, 10⟩ ⟨20, 20⟩) ⟨15, 15⟩ = true ∧
    Rect.containsPt (Rect.new ⟨10, 10⟩ ⟨20, 20⟩) ⟨20, 20⟩ = true ∧
    ∀ (r : Rect) (p : Coord), r.containsPt p = true ↔
      (r.left ≤ p.x ∧ p.x ≤ r.right ∧ r.top ≤ p.y ∧ p.y ≤ r.bottom) := by
  refine ⟨by decide, by decide, fun r p => ?_⟩
  simp [Rect.containsPt, and_assoc]

/-- C10: `Rect` never requires ordered corners: for every pair of constructor
arguments (including a "top-left" right of or below the "bottom-right"),
`left ≤ right` and `top ≤ bottom` hold, `width`/`height` are the absolute
coordinate differences, and `contains`, `outline_pixels` and `filled_pixels`
agree exactly with those of the normalized rectangle
`Rect::new((left,top),(right,bottom))`. -/
theorem c10_rect_unordered_corners (tl br : Coord) :
    (Rect.new tl br).left ≤ (Rect.new tl br).right ∧
    (Rect.new tl br).top ≤ (Rect.new tl br).bottom ∧
    (Rect.new tl br).width = (br.x - tl.x).natAbs ∧
    (Rect.new tl br).height = (br.y - tl.y).natAbs ∧
    (∀ p, (Rect.new tl br).containsPt p =
      (Rect.new ⟨(Rect.new tl br).left, (Rect.new tl br).top⟩
        ⟨(Rect.new tl br).right, (Rect.new tl br).bottom⟩).containsPt p) ∧
    (Rect.new tl br).outlineF =
      (Rect.new ⟨(Rect.new tl br).left, (Rect.new tl br).top⟩
        ⟨(Rect.new tl br).right, (Rect.new tl br).bottom⟩).outlineF ∧
    (Rect.new tl br).filledF =
      (Rect.new ⟨(Rect.new tl br).left, (Rect.new tl br).top⟩
        ⟨(Rect.new tl br).right, (Rect.new tl br).bottom⟩).filledF := by
  have hl : (Rect.new ⟨(Rect.new tl br).left, (Rect.new tl br).top⟩
      ⟨(Rect.new tl br).right, (Rect.new tl br).bottom⟩).left = (Rect.new tl br).left := by
    simp only [Rect.new, Rect.left, Rect.right, Rect.top, Rect.bottom]
    omega
  have hr : (Rect.new ⟨(Rect.new tl br).left, (Rect.new tl br).top⟩
      ⟨(Rect.new tl br).right, (Rect.new tl br).bottom⟩).right = (Rect.new tl br).right := by
    simp only [Rect.new, Rect.left, Rect.right, Rect.top, Rect.bottom]
    omega
  have ht : (Rect.new ⟨(Rect.new tl br).left, (Rect.new tl br).top⟩
      ⟨(Rect.new tl br).right, (Rect.new tl br).bottom⟩).top = (Rect.new tl br).top := by
    simp only [Rect.new, Rect.left, Rect.right, Rect.top, Rect.bottom]
    omega
  have hb : (Rect.new ⟨(Rect.new tl br).left, (Rect.new tl br).top⟩
      ⟨(Rect.new tl br).right, (Rect.new tl br).bottom⟩).bottom = (Rect.new tl br).bottom := by
    simp only [Rect.new, Rect.left, Rect.right, Rect.top, Rect.bottom]
    omega
  refine ⟨?_, ?_, rfl, rfl, ?_, ?_, ?_⟩
  · simp only [Rect.new, Rect.left, Rect.right]; omega
  · simp only [Rect.new, Rect.top, Rect.bottom]; omega
  · intro p
    simp only [Rect.containsPt, hl, hr, ht, hb]
  · exact (Rect.outlineF_congr _ _ hl hr ht hb).symm
  · exact (Rect.filledF_congr _ _ hl hr ht hb).symm

/-! ## Frac: executable exact fraction arithmetic

Models the real-number value of the `f32`/`f64` expressions in the source
(ring operations and division are exact; see the module comment for the
divergences this idealization introduces). Fractions are unreduced `Int`
pairs so every operation is kernel-computable. -/

/-- Unreduced fraction `num/den` (intended `den ≠ 0`). -/
structure Frac where
  num : Int
  den : Int
deriving DecidableEq, Repr

/-- Embed an integer as a fraction. -/
def Frac.ofInt (n : Int) : Frac := ⟨n, 1⟩

/-- Fraction addition. -/
def Frac.add (a b : Frac) : Frac := ⟨a.num * b.den + b.num * a.den, a.den * b.den⟩

/-- Fraction subtraction. -/
def Frac.sub (a b : Frac) : Frac := ⟨a.num * b.den - b.num * a.den, a.den * b.den⟩

/-- Fraction multiplication. -/
def Frac.mul (a b : Frac) : Frac := ⟨a.num * b.num, a.den * b.den⟩

/-- Fraction division (division by a zero fraction yields a zero-denominator
fraction, whose comparisons are all false; the IEEE code would produce
infinities/NaN there, whose comparisons used in the source are also false). -/
def Frac.div (a b : Frac) : Frac := ⟨a.num * b.den, a.den * b.num⟩

/-- Fraction negation. -/
def Frac.neg (a : Frac) : Frac := ⟨-a.num, a.den⟩

/-- Strict comparison by cross-multiplication (false on zero denominators). -/
def Frac.lt (a b : Frac) : Bool :=
  if a.den * b.den > 0 then decide (a.num * b.den < b.num * a.den)
  else if a.den * b.den < 0 then decide (b.num * a.den < a.num * b.den)
  else false

/-- Non-strict comparison by cross-multiplication (false on zero denominators). -/
def Frac.le (a b : Frac) : Bool :=
  if a.den * b.den > 0 then decide (a.num * b.den ≤ b.num * a.den)
  else if a.den * b.den < 0 then decide (b.num * a.den ≤ a.num * b.den)
  else false

/-- Floor of a fraction (floor division of the components). -/
def Frac.floor (a : Frac) : Int :=
  if a.den > 0 then Int.fdiv a.num a.den else Int.fdiv (-a.num) (-a.den)

/-- Truncation toward zero, mirroring Rust `as isize` on a float value. -/
def Frac.trunc (a : Frac) : Int :=
  if a.den > 0 then Int.tdiv a.num a.den else Int.tdiv (-a.num) (-a.den)

/-! ## TrigModel: the floating-point trigonometric primitives

`Coord::from_angle` computes `x = (d * cos((deg-90)°)).round()`,
`y = (d * sin((deg-90)°)).round()` in `f32`; `Coord::angle_to` computes
`atan2(dy,dx).to_degrees().round()` in `f32`.  These rounded trig kernels
have no exact executable integer form, so definitions that need them are
parameterized by a model providing them; `polarX d θ` stands for
`(d * cos((θ-90)°)).round()`, `polarY d θ` for `(d * sin((θ-90)°)).round()`
and `atanDeg dy dx` for `atan2(dy,dx).to_degrees().round()`.
`cosF`/`sinF` model `f64` `cos`/`sin` on a real argument, and
`innerCoef`/`outerCef`-style fields model the ten precomputed `f64`
polygon coefficients of `intersection::shared::iterate`. -/
structure TrigModel where
  polarX : Nat → Int → Int
  polarY : Nat → Int → Int
  atanDeg : Int → Int → Int
  cosF : Frac → Frac
  sinF : Frac → Frac
  innerCoef : Nat → Frac
  outerCoef : Nat → Frac

/-- Rust `Coord::from_angle(center, distance, degrees)`. -/
def Coord.fromAngle (m : TrigModel) (center : Coord) (dist : Nat) (degrees : Int) : Coord :=
  ⟨center.x + m.polarX dist degrees, center.y + m.polarY dist degrees⟩

/-- Rust `Coord::angle_to`: `atan2(dy,dx)` in rounded degrees plus 90. -/
def Coord.angleTo (m : TrigModel) (a b : Coord) : Int :=
  m.atanDeg (b.y - a.y) (b.x - a.x) + 90

/-- Rust `general_math::rotate_points` applied to one point: re-project at the same
distance and the starting angle plus `degrees`. -/
def rotatePoint (m : TrigModel) (center : Coord) (p : Coord) (degrees : Int) : Coord :=
  Coord.fromAngle m center (center.distance p) (Coord.angleTo m center p + degrees)

/-- Rust `general_math::rotate_points` over a list. -/
def rotatePoints (m : TrigModel) (center : Coord) (pts : List Coord) (degrees : Int) :
    List Coord :=
  pts.map fun p => rotatePoint m center p degrees

/-! ## Line (src/line.rs) -/

/-- Rust `LineType`: Point / Horizontal / Vertical / Angled. -/
inductive LineType where
  | point
  | horizontal
  | vertical
  | angled
deriving DecidableEq, Repr

/-- The `line_type` computation in `Line::new`. -/
def lineTypeOf (s e : Coord) : LineType :=
  if s = e then .point
  else if s.x = e.x then .vertical
  else if s.y = e.y then .horizontal
  else .angled

/-- Rust `Line { start, end, len, line_type, angle }` (the Rust field `end` is a
Lean keyword, embedded as `end_`). -/
structure Line where
  start : Coord
  end_ : Coord
  len : Nat
  lineType : LineType
  angle : Int
deriving DecidableEq, Repr

/-- Rust `Line::new` computes the derived fields from the two endpoints. -/
def Line.new (m : TrigModel) (s e : Coord) : Line :=
  ⟨s, e, s.distance e, lineTypeOf s e, Coord.angleTo m s e⟩

/-- Rust `Line::left` (`min` of the endpoint x values). -/
def Line.left (l : Line) : Int := min l.start.x l.end_.x

/-- Rust `Line::right`. -/
def Line.right (l : Line) : Int := max l.start.x l.end_.x

/-- Rust `Line::top`. -/
def Line.top (l : Line) : Int := min l.start.y l.end_.y

/-- Rust `Line::bottom`. -/
def Line.bottom (l : Line) : Int := max l.start.y l.end_.y

/-- Rust `Line::contains`, by line type: exact point match, inclusive coordinate
range for axis-aligned lines, collinearity plus betweenness for angled ones. -/
def Line.containsPt (l : Line) (p : Coord) : Bool :=
  match l.lineType with
  | .point => decide (l.start = p)
  | .horizontal =>
      decide (l.start.y = p.y) && (decide (l.left ≤ p.x) && decide (p.x ≤ l.right))
  | .vertical =>
      decide (l.start.x = p.x) && (decide (l.top ≤ p.y) && decide (p.y ≤ l.bottom))
  | .angled => Coord.areCollinear l.start l.end_ p && Coord.isBetween p l.start l.end_

/-- Ascending inclusive integer range `a..=b` as a list. -/
def intRangeAsc (a b : Int) : List Int :=
  (List.range (b - a + 1).toNat).map fun i : Nat => a + (i : Int)

/-- The `dx >= dy` Bresenham loop of `Line::outline_pixels`: push `(x,y)`,
break once `x` reaches `x2`, else advance `x` by `ix` and accumulate the
error term (stepping `y` by `iy` when it overflows `dx`).  Fuel is one more
than the remaining step count, so the break always fires before exhaustion. -/
def bresX (x2 dx dx2 dy2 ix iy : Int) : Nat → Int → Int → Int → List Coord
  | 0, _, _, _ => []
  | fuel+1, x, y, delta =>
    ⟨x, y⟩ :: (if x = x2 then [] else
      let d := delta + dy2
      if d > dx then bresX x2 dx dx2 dy2 ix iy fuel (x + ix) (y + iy) (d - dx2)
      else bresX x2 dx dx2 dy2 ix iy fuel (x + ix) y d)

/-- The `dy > dx` Bresenham loop of `Line::outline_pixels` (roles of the axes
exchanged). -/
def bresY (y2 dy dy2 dx2 ix iy : Int) : Nat → Int → Int → Int → List Coord
  | 0, _, _, _ => []
  | fuel+1, x, y, delta =>
    ⟨x, y⟩ :: (if y = y2 then [] else
      let d := delta + dx2
      if d > dy then bresY y2 dy dy2 dx2 ix iy fuel (x + ix) (y + iy) (d - dy2)
      else bresY y2 dy dy2 dx2 ix iy fuel x (y + iy) d)

/-- The body of `Line::outline_pixels` after the possible endpoint swap:
short-circuit vertical/horizontal lines to a direct range fill, otherwise
run Bresenham's integer line algorithm (`dx.abs` / `dy.abs` as `isize::abs`,
steps `ix`/`iy` of unit magnitude). -/
def outlineFrom (s e : Coord) : List Coord :=
  if s.x = e.x then (intRangeAsc s.y e.y).map fun y => ⟨s.x, y⟩
  else if s.y = e.y then (intRangeAsc s.x e.x).map fun x => ⟨x, s.y⟩
  else
    let dx : Int := ((e.x - s.x).natAbs : Int)
    let dy : Int := ((e.y - s.y).natAbs : Int)
    let ix : Int := if s.x < e.x then 1 else -1
    let iy : Int := if s.y < e.y then 1 else -1
    if dx ≥ dy then bresX e.x dx (dx*2) (dy*2) ix iy (dx.toNat + 1) s.x s.y 0
    else bresY e.y dy (dy*2) (dx*2) ix iy (dy.toNat + 1) s.x s.y 0

/-- Rust `Line::outline_pixels`: swap the endpoints when the start is right of or
below the end, then rasterize. -/
def Line.outlinePixels (l : Line) : List Coord :=
  if l.start.x > l.end_.x || l.start.y > l.end_.y then outlineFrom l.end_ l.start
  else outlineFrom l.start l.end_

/-- Rust `Line::filled_pixels` delegates to `outline_pixels`. -/
def Line.filledPixels (l : Line) : List Coord := l.outlinePixels

theorem mem_intRangeAsc {a b v : Int} : v ∈ intRangeAsc a b ↔ a ≤ v ∧ v ≤ b := by
  simp only [intRangeAsc, List.mem_map, List.mem_range]
  constructor
  · rintro ⟨i, hi, rfl⟩
    omega
  · rintro ⟨h1, h2⟩
    exact ⟨(v - a).toNat, by omega, by omega⟩

theorem bresX_mem (x2 y2 dx dy ix iy : Int) (hdx : 1 ≤ dx) (hdy : 0 ≤ dy)
    (hdyx : dy ≤ dx) (hix : ix ≠ 0) (hiy : iy * iy = 1) :
    ∀ (n : Nat) (x y delta : Int),
      x2 - x = ix * n →
      0 ≤ iy * (y2 - y) →
      delta = 2 * dy * (dx - n) - 2 * dx * (dy - iy * (y2 - y)) →
      -dx < delta → delta ≤ dx →
      (⟨x2, y2⟩ : Coord) ∈ bresX x2 dx (dx * 2) (dy * 2) ix iy (n + 1) x y delta := by
  intro n
  induction n with
  | zero =>
    intro x y delta h1 h2 h3 h4 h5
    have hx : x = x2 := by push_cast at h1; omega
    have hdelta : delta = 2 * dx * (iy * (y2 - y)) := by
      rw [h3]; push_cast; ring
    have hr : iy * (y2 - y) = 0 := by nlinarith
    have hy : y = y2 := by
      have : iy * (iy * (y2 - y)) = 0 := by rw [hr]; ring
      have h' : (iy * iy) * (y2 - y) = 0 := by linarith [this]; 
      rw [hiy] at h'
      linarith
    subst hx; subst hy
    simp [bresX]
  | succ k ih =>
    intro x y delta h1 h2 h3 h4 h5
    have hxne : ¬ (x = x2) := by
      intro he
      rw [he] at h1
      have hm : ix * ((k:Int) + 1) = 0 := by push_cast at h1; linarith
      rcases mul_eq_zero.mp hm with h | h
      · exact hix h
      · omega
    by_cases hd : delta + dy * 2 > dx
    · have hr1 : 1 ≤ iy * (y2 - y) := by
        by_contra hc
        have hr0 : iy * (y2 - y) = 0 := by omega
        have : delta + dy * 2 = -(2 * dy * k) := by
          rw [h3, hr0]; push_cast; ring
        nlinarith [mul_nonneg hdy (by positivity : (0:Int) ≤ (k:Int))]
      have step := ih (x + ix) (y + iy) (delta + dy * 2 - dx * 2)
        (by push_cast at h1 ⊢; linarith)
        (by
          have : iy * (y2 - (y + iy)) = iy * (y2 - y) - 1 := by linear_combination -hiy
          omega)
        (by
          have : iy * (y2 - (y + iy)) = iy * (y2 - y) - 1 := by linear_combination -hiy
          rw [this, h3]; push_cast; ring)
        (by linarith)
        (by linarith)
      show _ ∈ bresX x2 dx (dx*2) (dy*2) ix iy (k + 1 + 1) x y delta
      rw [bresX]
      simp only [hxne, if_false]
      refine List.mem_cons_of_mem _ ?_
      simpa [hd] using step
    · have step := ih (x + ix) y (delta + dy * 2)
        (by push_cast at h1 ⊢; linarith)
        h2
        (by rw [h3]; push_cast; ring)
        (by linarith)
        (by linarith)
      show _ ∈ bresX x2 dx (dx*2) (dy*2) ix iy (k + 1 + 1) x y delta
      rw [bresX]
      simp only [hxne, if_false]
      refine List.mem_cons_of_mem _ ?_
      simpa [hd] using step

theorem bresY_mem (x2 y2 dx dy ix iy : Int) (hdy : 1 ≤ dy) (hdx : 0 ≤ dx)
    (hdxy : dx ≤ dy) (hiy : iy ≠ 0) (hix : ix * ix = 1) :
    ∀ (n : Nat) (x y delta : Int),
      y2 - y = iy * n →
      0 ≤ ix * (x2 - x) →
      delta = 2 * dx * (dy - n) - 2 * dy * (dx - ix * (x2 - x)) →
      -dy < delta → delta ≤ dy →
      (⟨x2, y2⟩ : Coord) ∈ bresY y2 dy (dy * 2) (dx * 2) ix iy (n + 1) x y delta := by
  intro n
  induction n with
  | zero =>
    intro x y delta h1 h2 h3 h4 h5
    have hy : y = y2 := by push_cast at h1; omega
    have hdelta : delta = 2 * dy * (ix * (x2 - x)) := by
      rw [h3]; push_cast; ring
    have hr : ix * (x2 - x) = 0 := by nlinarith
    have hx : x = x2 := by
      have : ix * (ix * (x2 - x)) = 0 := by rw [hr]; ring
      have h' : (ix * ix) * (x2 - x) = 0 := by linarith [this]
      rw [hix] at h'
      linarith
    subst hx; subst hy
    simp [bresY]
  | succ k ih =>
    intro x y delta h1 h2 h3 h4 h5
    have hyne : ¬ (y = y2) := by
      intro he
      rw [he] at h1
      have hm : iy * ((k:Int) + 1) = 0 := by push_cast at h1; linarith
      rcases mul_eq_zero.mp hm with h | h
      · exact hiy h
      · omega
    by_cases hd : delta + dx * 2 > dy
    · have hr1 : 1 ≤ ix * (x2 - x) := by
        by_contra hc
        have hr0 : ix * (x2 - x) = 0 := by omega
        have : delta + dx * 2 = -(2 * dx * k) := by
          rw [h3, hr0]; push_cast; ring
        nlinarith [mul_nonneg hdx (by positivity : (0:Int) ≤ (k:Int))]
      have step := ih (x + ix) (y + iy) (delta + dx * 2 - dy * 2)
        (by push_cast at h1 ⊢; linarith)
        (by
          have : ix * (x2 - (x + ix)) = ix * (x2 - x) - 1 := by linear_combination -hix
          omega)
        (by
          have : ix * (x2 - (x + ix)) = ix * (x2 - x) - 1 := by linear_combination -hix
          rw [this, h3]; push_cast; ring)
        (by linarith)
        (by linarith)
      show _ ∈ bresY y2 dy (dy*2) (dx*2) ix iy (k + 1 + 1) x y delta
      rw [bresY]
      simp only [hyne, if_false]
      refine List.mem_cons_of_mem _ ?_
      simpa [hd] using step
    · have step := ih x (y + iy) (delta + dx * 2)
        (by push_cast at h1 ⊢; linarith)
        h2
        (by rw [h3]; push_cast; ring)
        (by linarith)
        (by linarith)
      show _ ∈ bresY y2 dy (dy*2) (dx*2) ix iy (k + 1 + 1) x y delta
      rw [bresY]
      simp only [hyne, if_false]
      refine List.mem_cons_of_mem _ ?_
      simpa [hd] using step

theorem outlineFrom_mem (s e : Coord) (hv : s.x = e.x → s.y ≤ e.y)
    (hh : s.y = e.y → s.x ≤ e.x) :
    s ∈ outlineFrom s e ∧ e ∈ outlineFrom s e := by
  unfold outlineFrom
  by_cases h1 : s.x = e.x
  · have hy := hv h1
    simp only [h1, if_pos, List.mem_map]
    constructor
    · exact ⟨s.y, mem_intRangeAsc.mpr ⟨le_refl _, hy⟩, by rw [← h1]⟩
    · exact ⟨e.y, mem_intRangeAsc.mpr ⟨hy, le_refl _⟩, rfl⟩
  · by_cases h2 : s.y = e.y
    · have hx := hh h2
      simp only [h1, h2, if_neg, not_false_iff, if_pos, List.mem_map]
      constructor
      · exact ⟨s.x, mem_intRangeAsc.mpr ⟨le_refl _, hx⟩, by rw [← h2]⟩
      · exact ⟨e.x, mem_intRangeAsc.mpr ⟨hx, le_refl _⟩, rfl⟩
    · simp only [h1, h2, if_neg, not_false_iff]
      have hxne : s.x ≠ e.x := h1
      have hyne : s.y ≠ e.y := h2
      set dx : Int := ((e.x - s.x).natAbs : Int) with hdx_def
      set dy : Int := ((e.y - s.y).natAbs : Int) with hdy_def
      set ix : Int := if s.x < e.x then (1:Int) else -1 with hix_def
      set iy : Int := if s.y < e.y then (1:Int) else -1 with hiy_def
      have hdx1 : 1 ≤ dx := by rw [hdx_def]; omega
      have hdy1 : 1 ≤ dy := by rw [hdy_def]; omega
      have hix_ne : ix ≠ 0 := by
        rw [hix_def]; split <;> omega
      have hiy_ne : iy ≠ 0 := by
        rw [hiy_def]; split <;> omega
      have hix_sq : ix * ix = 1 := by
        rw [hix_def]; split <;> ring
      have hiy_sq : iy * iy = 1 := by
        rw [hiy_def]; split <;> ring
      have hex : e.x - s.x = ix * dx := by
        rw [hix_def, hdx_def]; split <;> omega
      have hey : e.y - s.y = iy * dy := by
        rw [hiy_def, hdy_def]; split <;> omega
      have hdxt : ((dx.toNat : Nat) : Int) = dx := by rw [hdx_def]; omega
      have hdyt : ((dy.toNat : Nat) : Int) = dy := by rw [hdy_def]; omega
      by_cases h3 : dx ≥ dy
      · simp only [h3, if_pos, ge_iff_le]
        constructor
        · show _ ∈ bresX e.x dx (dx*2) (dy*2) ix iy (dx.toNat + 1) s.x s.y 0
          rw [bresX]
          exact List.mem_cons_self _ _
        · show _ ∈ bresX e.x dx (dx*2) (dy*2) ix iy (dx.toNat + 1) s.x s.y 0
          apply bresX_mem e.x e.y dx dy ix iy hdx1 (by omega) h3 hix_ne hiy_sq
            dx.toNat s.x s.y 0
          · rw [hdxt]; linarith [hex]
          · have : iy * (e.y - s.y) = dy := by
              have := congrArg (fun t => iy * t) hey
              simpa [← mul_assoc, hiy_sq] using this
            linarith [this, hdy1]
          · have hr : iy * (e.y - s.y) = dy := by
              have := congrArg (fun t => iy * t) hey
              simpa [← mul_assoc, hiy_sq] using this
            rw [hr, hdxt]; ring
          · linarith
          · linarith
      · simp only [h3, if_neg, not_false_iff]
        constructor
        · show _ ∈ bresY e.y dy (dy*2) (dx*2) ix iy (dy.toNat + 1) s.x s.y 0
          rw [bresY]
          exact List.mem_cons_self _ _
        · show _ ∈ bresY e.y dy (dy*2) (dx*2) ix iy (dy.toNat + 1) s.x s.y 0
          apply bresY_mem e.x e.y dx dy ix iy hdy1 (by omega) (by omega) hiy_ne hix_sq
            dy.toNat s.x s.y 0
          · rw [hdyt]; linarith [hey]
          · have : ix * (e.x - s.x) = dx := by
              have := congrArg (fun t => ix * t) hex
              simpa [← mul_assoc, hix_sq] using this
            linarith [this, hdx1]
          · have hr : ix * (e.x - s.x) = dx := by
              have := congrArg (fun t => ix * t) hex
              simpa [← mul_assoc, hix_sq] using this
            rw [hr, hdyt]; ring
          · linarith
          · linarith

theorem outline_endpoints (l : Line) :
    l.start ∈ l.outlinePixels ∧ l.end_ ∈ l.outlinePixels := by
  unfold Line.outlinePixels
  by_cases hc : l.start.x > l.end_.x || l.start.y > l.end_.y
  · simp only [hc, if_pos]
    have hb := Bool.or_eq_true _ _ |>.mp hc
    have h := outlineFrom_mem l.end_ l.start
      (by intro hx; simp only [decide_eq_true_eq] at hb; omega)
      (by intro hy; simp only [decide_eq_true_eq] at hb; omega)
    exact ⟨h.2, h.1⟩
  · simp only [hc, if_neg, not_false_iff]
    have hb : ¬ (l.start.x > l.end_.x) ∧ ¬ (l.start.y > l.end_.y) := by
      constructor <;> (intro hg; apply hc; simp [hg])
    exact outlineFrom_mem l.start l.end_ (fun _ => by omega) (fun _ => by omega)

theorem intRangeAsc_self (a : Int) : intRangeAsc a a = [a] := by
  have h : (a - a + 1).toNat = 1 := by omega
  simp [intRangeAsc, h, List.range_succ]

theorem outline_vertical_char (l : Line) (h : l.start.x = l.end_.x) :
    l.outlinePixels = (intRangeAsc (min l.start.y l.end_.y) (max l.start.y l.end_.y)).map
      fun y => ⟨l.start.x, y⟩ := by
  unfold Line.outlinePixels
  by_cases hc : l.start.x > l.end_.x || l.start.y > l.end_.y
  · have hb := Bool.or_eq_true _ _ |>.mp hc
    have hy : l.start.y > l.end_.y := by
      rcases hb with hb | hb <;> simp only [decide_eq_true_eq] at hb
      · omega
      · exact hb
    simp only [hc, if_pos]
    unfold outlineFrom
    rw [if_pos h.symm]
    have h1 : min l.start.y l.end_.y = l.end_.y := by omega
    have h2 : max l.start.y l.end_.y = l.start.y := by omega
    rw [h1, h2, h]
  · have hb : ¬ (l.start.y > l.end_.y) := by
      intro hg; apply hc; simp [hg]
    rw [if_neg hc]
    unfold outlineFrom
    rw [if_pos h]
    have h1 : min l.start.y l.end_.y = l.start.y := by omega
    have h2 : max l.start.y l.end_.y = l.end_.y := by omega
    rw [h1, h2]

theorem outline_horizontal_char (l : Line) (h : l.start.y = l.end_.y) :
    l.outlinePixels = (intRangeAsc (min l.start.x l.end_.x) (max l.start.x l.end_.x)).map
      fun x => ⟨x, l.start.y⟩ := by
  unfold Line.outlinePixels
  by_cases hc : l.start.x > l.end_.x || l.start.y > l.end_.y
  · have hb := Bool.or_eq_true _ _ |>.mp hc
    have hx : l.start.x > l.end_.x := by
      rcases hb with hb | hb <;> simp only [decide_eq_true_eq] at hb
      · exact hb
      · omega
    simp only [hc, if_pos]
    unfold outlineFrom
    rw [if_neg (by omega), if_pos h.symm]
    have h1 : min l.start.x l.end_.x = l.end_.x := by omega
    have h2 : max l.start.x l.end_.x = l.start.x := by omega
    rw [h1, h2, h]
  · have hb : ¬ (l.start.x > l.end_.x) := by
      intro hg; apply hc; simp [hg]
    rw [if_neg hc]
    unfold outlineFrom
    by_cases hpt : l.start.x = l.end_.x
    · rw [if_pos hpt]
      have h1 : min l.start.x l.end_.x = l.start.x := by omega
      have h2 : max l.start.x l.end_.x = l.start.x := by omega
      rw [h1, h2, ← h, intRangeAsc_self, intRangeAsc_self]
      simp
    · rw [if_neg hpt, if_pos h]
      have h1 : min l.start.x l.end_.x = l.start.x := by omega
      have h2 : max l.start.x l.end_.x = l.end_.x := by omega
      rw [h1, h2]

/-- C8: for every `Line`, `outline_pixels` contains both the start and the end
coordinate; vertical and horizontal lines are produced by a direct inclusive
range fill; and `Line::new((0,0),(6,0)).outline_pixels()` is exactly
`[(0,0),(1,0),(2,0),(3,0),(4,0),(5,0),(6,0)]`. -/
theorem c8_line_outline_pixels :
    (∀ l : Line, l.start ∈ l.outlinePixels ∧ l.end_ ∈ l.outlinePixels) ∧
    (∀ l : Line, l.start.x = l.end_.x →
      l.outlinePixels = (intRangeAsc (min l.start.y l.end_.y) (max l.start.y l.end_.y)).map
        fun y => ⟨l.start.x, y⟩) ∧
    (∀ l : Line, l.start.y = l.end_.y →
      l.outlinePixels = (intRangeAsc (min l.start.x l.end_.x) (max l.start.x l.end_.x)).map
        fun x => ⟨x, l.start.y⟩) ∧
    (∀ m : TrigModel, (Line.new m ⟨0, 0⟩ ⟨6, 0⟩).outlinePixels =
      [⟨0, 0⟩, ⟨1, 0⟩, ⟨2, 0⟩, ⟨3, 0⟩, ⟨4, 0⟩, ⟨5, 0⟩, ⟨6, 0⟩]) :=
  ⟨outline_endpoints, outline_vertical_char, outline_horizontal_char, fun _ => rfl⟩

/-- C8 witness: the range-fill characterizations applied at the concrete
vertical line (2,9)→(2,5) and horizontal line (7,3)→(4,3). -/
theorem c8_line_outline_pixels_witness :
    (⟨⟨2, 9⟩, ⟨2, 5⟩, 4, .vertical, 0⟩ : Line).outlinePixels =
      [⟨2, 5⟩, ⟨2, 6⟩, ⟨2, 7⟩, ⟨2, 8⟩, ⟨2, 9⟩] ∧
    (⟨⟨7, 3⟩, ⟨4, 3⟩, 3, .horizontal, 270⟩ : Line).outlinePixels =
      [⟨4, 3⟩, ⟨5, 3⟩, ⟨6, 3⟩, ⟨7, 3⟩] :=
  ⟨(c8_line_outline_pixels.2.1 ⟨⟨2, 9⟩, ⟨2, 5⟩, 4, .vertical, 0⟩ rfl).trans (by decide),
   (c8_line_outline_pixels.2.2.1 ⟨⟨7, 3⟩, ⟨4, 3⟩, 3, .horizontal, 270⟩ rfl).trans (by decide)⟩

/-! ## Bitwise XOR on Int (two's complement, as Rust `isize` `^`) -/

/-- Bitwise XOR on arbitrary-precision two's-complement integers; agrees with
64-bit `isize ^ isize` whenever the operands fit. -/
def intXor : Int → Int → Int
  | .ofNat n, .ofNat m => .ofNat (n ^^^ m)
  | .ofNat n, .negSucc m => .negSucc (n ^^^ m)
  | .negSucc n, .ofNat m => .negSucc (n ^^^ m)
  | .negSucc n, .negSucc m => .ofNat (n ^^^ m)

/-! ## Circle (src/circle.rs) -/

/-- Rust `Circle { center, radius }` with a non-negative radius. -/
structure Circle where
  center : Coord
  radius : Nat
deriving DecidableEq, Repr

/-- Rust `Circle::new`. -/
def Circle.new (c : Coord) (r : Nat) : Circle := ⟨c, r⟩

/-- Rust `Circle::contains`: rounded center distance at most the radius. -/
def Circle.containsPt (c : Circle) (p : Coord) : Bool :=
  decide (c.center.distance p ≤ c.radius)

/-- Rust `Circle::points`: `[center, edge]` where the edge is the polar projection
of the radius at 0 degrees. -/
def Circle.points (m : TrigModel) (c : Circle) : List Coord :=
  [c.center, Coord.fromAngle m c.center c.radius 0]

/-- Rust `Circle::from_points`: `[center, edge]`, radius recomputed as the rounded
distance between them. -/
def Circle.fromPoints (pts : List Coord) : Circle :=
  Circle.new (pts.getD 0 ⟨0, 0⟩) ((pts.getD 0 ⟨0, 0⟩).distance (pts.getD 1 ⟨0, 0⟩))

/-- Rust `Circle::intersects_circle`: rounded center distance at most the larger
radius (`circle.radius().max(self.radius())`). -/
def Circle.intersectsCircle (self other : Circle) : Bool :=
  decide (Coord.distance other.center self.center ≤ max other.radius self.radius)

/-- Rust `Circle::contains_circle` (contains/circle.rs): strict comparison of the
center distance against `|r_outer - r_inner|`. -/
def Circle.containsCircle (self other : Circle) : Bool :=
  decide ((self.center.distance other.center : Int) <
    ((self.radius : Int) - (other.radius : Int)).natAbs)

theorem roundSqrt_sq (r : Nat) : roundSqrt (r * r) = r := by
  obtain ⟨h1, h2⟩ := intSqrt_spec (r * r)
  have hs : intSqrt (r * r) = r := by nlinarith
  unfold roundSqrt
  rw [hs]
  simp only [if_pos (by nlinarith : r * r ≤ r * r + r)]

/-- C5: `Circle::intersects_circle` holds exactly when the rounded integer
distance between the two centers is at most `max(r1, r2)` — equivalently,
when the squared center offset is at most `M^2 + M` for `M = max(r1,r2)` —
and is deliberately not the classical sum-of-radii disk-overlap test:
the circles of radius 5 at (0,0) and (9,0) overlap as disks
(distance 9 ≤ 5+5) yet the predicate is false. -/
theorem c5_circle_circle_intersects :
    (∀ c1 c2 : Circle, Circle.intersectsCircle c1 c2 = true ↔
      ((c1.center.x - c2.center.x) * (c1.center.x - c2.center.x) +
        (c1.center.y - c2.center.y) * (c1.center.y - c2.center.y) : Int) ≤
        ((max c1.radius c2.radius : Nat) * (max c1.radius c2.radius : Nat) +
          (max c1.radius c2.radius : Nat) : Nat)) ∧
    (Circle.intersectsCircle (Circle.new ⟨0, 0⟩ 5) (Circle.new ⟨9, 0⟩ 5) = false ∧
      Coord.distance ⟨0, 0⟩ ⟨9, 0⟩ ≤ 5 + 5) := by
  refine ⟨fun c1 c2 => ?_, by decide, by decide⟩
  unfold Circle.intersectsCircle Coord.distance
  rw [decide_eq_true_eq, Nat.max_comm c2.radius c1.radius, roundSqrt_le_iff, Int.toNat_le]

/-! ## Ellipse (src/ellipse.rs) -/

/-- Rust `Ellipse { center, top, right, rotation }`: `top`/`right` are stored at
their un-rotated axis positions, `rotation` in degrees. -/
structure Ellipse where
  center : Coord
  top : Coord
  right : Coord
  rotation : Int
deriving DecidableEq, Repr

/-- Rust `Ellipse::new(center, width, height)`: axis-aligned, rotation 0,
`top = center - (0, height/2)`, `right = center + (width/2, 0)`. -/
def Ellipse.new (c : Coord) (w h : Nat) : Ellipse :=
  ⟨c, Coord.sub c ⟨0, (h / 2 : Nat)⟩, Coord.add c ⟨(w / 2 : Nat), 0⟩, 0⟩

/-- Rust `Ellipse::from_points` (`[center, top, right]`): the rotation is read off
the input top point via `angle_to`, then `top`/`right` are re-projected onto
the axes at 0 and 90 degrees with their rounded distances. -/
def Ellipse.fromPoints (m : TrigModel) (pts : List Coord) : Ellipse :=
  let center := pts.getD 0 ⟨0, 0⟩
  let topIn := pts.getD 1 ⟨0, 0⟩
  let rightIn := pts.getD 2 ⟨0, 0⟩
  ⟨center,
    Coord.fromAngle m center (topIn.distance center) 0,
    Coord.fromAngle m center (rightIn.distance center) 90,
    Coord.angleTo m center topIn⟩

/-- Rust `Ellipse::points`: `[center, top-at-rotation, right-at-rotation+90]`. -/
def Ellipse.points (m : TrigModel) (e : Ellipse) : List Coord :=
  [e.center,
    Coord.fromAngle m e.center (e.center.distance e.top) e.rotation,
    Coord.fromAngle m e.center (e.center.distance e.right) (e.rotation + 90)]

/-- Rust `Ellipse::right()`: the x of the stored right point. -/
def Ellipse.rightX (e : Ellipse) : Int := e.right.x

/-- Rust `Ellipse::left()`: `right.x - 2 * distance(center, right)`. -/
def Ellipse.leftX (e : Ellipse) : Int :=
  e.right.x - ((e.center.distance e.right * 2 : Nat) : Int)

/-- Rust `Ellipse::top()`: the y of the stored top point. -/
def Ellipse.topY (e : Ellipse) : Int := e.top.y

/-- Rust `Ellipse::bottom()`: `top.y + 2 * distance(center, top)`. -/
def Ellipse.bottomY (e : Ellipse) : Int :=
  e.top.y + ((e.center.distance e.top * 2 : Nat) : Int)

/-- Rust `Ellipse::width() = (right() - left()).unsigned_abs()`. -/
def Ellipse.width (e : Ellipse) : Nat := (e.rightX - e.leftX).natAbs

/-- Rust `Ellipse::height() = (bottom() - top()).unsigned_abs()`. -/
def Ellipse.height (e : Ellipse) : Nat := (e.bottomY - e.topY).natAbs

/-- The `Shape` default `top_left()` as seen by `Ellipse` (no override):
`(left(), top())`. -/
def Ellipse.topLeftPt (e : Ellipse) : Coord := ⟨e.leftX, e.topY⟩

/-- Rust `Ellipse::contains`: the source uses `^` — bitwise XOR on `isize` — where
squaring was evidently intended, with truncating integer division:
`((px-cx)^2)/((width)^2) + ((py-cy)^2)/((height)^2) <= 1`. -/
def Ellipse.containsPt (e : Ellipse) (p : Coord) : Bool :=
  decide (Int.tdiv (intXor (p.x - e.center.x) 2) (intXor (e.width : Int) 2) +
    Int.tdiv (intXor (p.y - e.center.y) 2) (intXor (e.height : Int) 2) ≤ 1)

/-- Modelled from the spec: the true boundary-inclusive ellipse-equation test
`x^2/a^2 + y^2/b^2 ≤ 1` with semi-axes `a = width/2`, `b = height/2`, in
exact fraction arithmetic.  This is the reference predicate the spec says
`Ellipse::contains` is NOT equivalent to. -/
def idealEllipseContains (e : Ellipse) (p : Coord) : Bool :=
  let a : Frac := ⟨(e.width : Int), 2⟩
  let b : Frac := ⟨(e.height : Int), 2⟩
  let xx : Frac := Frac.ofInt (p.x - e.center.x)
  let yy : Frac := Frac.ofInt (p.y - e.center.y)
  Frac.le (Frac.add (Frac.div (Frac.mul xx xx) (Frac.mul a a))
    (Frac.div (Frac.mul yy yy) (Frac.mul b b))) (Frac.ofInt 1)

/-- Concrete trigonometric backend used only to close concrete
counterexamples and witnesses.  Its values agree exactly with the IEEE
`f32` primitives on the fragment where proofs below evaluate it:
`atan2(0,0) = +0` (IEEE 754), axis `atan2` values (whose rounded degrees
are exact), and the quadrant angles `0/90/180/270`, whose `f32`
sine/cosine are `±1` and `±4.371139e-8`, so the rounded products are
exact for every distance below `11_441_248`.  Away from that fragment the
values are arbitrary placeholders that no proof evaluates. -/
def refTrig : TrigModel where
  polarX := fun d θ =>
    if θ % 360 = 90 then (d : Int) else if θ % 360 = 270 then -(d : Int) else 0
  polarY := fun d θ =>
    if θ % 360 = 0 then -(d : Int) else if θ % 360 = 180 then (d : Int) else 0
  atanDeg := fun dy dx =>
    if dx = 0 ∧ dy = 0 then 0
    else if dx = 0 then (if 0 < dy then 90 else -90)
    else if dy = 0 then (if 0 < dx then 0 else 180)
    else 0
  cosF := fun _ => ⟨0, 1⟩
  sinF := fun _ => ⟨0, 1⟩
  innerCoef := fun _ => ⟨0, 1⟩
  outerCoef := fun _ => ⟨0, 1⟩

/-- C7: `Ellipse::contains` is computed with `^` as bitwise XOR in place of
squaring — for every ellipse and point it equals the XOR/truncated-division
formula — and is therefore not the true boundary-inclusive ellipse test:
for the ellipse at (0,0) with width and height 10, the point (7,0) is
far outside the true ellipse yet `contains` returns true. -/
theorem c7_ellipse_contains_xor :
    (∀ (e : Ellipse) (p : Coord), Ellipse.containsPt e p =
      decide (Int.tdiv (intXor (p.x - e.center.x) 2) (intXor (e.width : Int) 2) +
        Int.tdiv (intXor (p.y - e.center.y) 2) (intXor (e.height : Int) 2) ≤ 1)) ∧
    Ellipse.containsPt (Ellipse.new ⟨0, 0⟩ 10 10) ⟨7, 0⟩ = true ∧
    idealEllipseContains (Ellipse.new ⟨0, 0⟩ 10 10) ⟨7, 0⟩ = false :=
  ⟨fun _ _ => rfl, by decide, by decide⟩

/-! ## Triangle (src/triangle.rs) -/

/-- Rust `TriangleAngleType`. -/
inductive TriangleAngleType where
  | acute
  | right
  | obtuse
  | equiangular
  | other
deriving DecidableEq, Repr

/-- Rust `TriangleSideType`. -/
inductive TriangleSideType where
  | isosceles
  | scalene
  | equilateral
deriving DecidableEq, Repr

/-- Rust `Triangle { points, angles, angle_type, side_type, center }`. -/
structure Triangle where
  p0 : Coord
  p1 : Coord
  p2 : Coord
  angles : Int × Int × Int
  angleType : TriangleAngleType
  sideType : TriangleSideType
  center : Coord
deriving DecidableEq, Repr

/-- Rust `Triangle::new`: derives the corner angles via `angle_to`, classifies the
angle type and side type, and sets the center to the midpoint of the
bounding box corners. -/
def Triangle.new (m : TrigModel) (pt1 pt2 pt3 : Coord) : Triangle :=
  let a0 := Coord.angleTo m pt1 pt2
  let a1 := Coord.angleTo m pt2 pt3
  let a2 := Coord.angleTo m pt3 pt1
  let angleType : TriangleAngleType :=
    if a0.natAbs = 90 ∨ a1.natAbs = 90 ∨ a2.natAbs = 90 then .right
    else if a0.natAbs < 90 ∧ a1.natAbs < 90 ∧ a2.natAbs < 90 then .acute
    else if a0.natAbs = a1.natAbs ∧ a1.natAbs = a2.natAbs then .equiangular
    else if 90 < a0.natAbs ∨ 90 < a1.natAbs ∨ 90 < a2.natAbs then .obtuse
    else .other
  let d01 := pt1.distance pt2
  let d12 := pt2.distance pt3
  let d20 := pt3.distance pt1
  let sideType : TriangleSideType :=
    if d01 = d12 ∧ d20 = d12 then .equilateral
    else if d01 = d12 ∨ d20 = d12 ∨ d20 = d01 then .isosceles
    else .scalene
  let leftV := min pt1.x (min pt2.x pt3.x)
  let rightV := max pt1.x (max pt2.x pt3.x)
  let topV := min pt1.y (min pt2.y pt3.y)
  let bottomV := max pt1.y (max pt2.y pt3.y)
  ⟨pt1, pt2, pt3, (a0, a1, a2), angleType, sideType,
    Coord.midPoint ⟨leftV, topV⟩ ⟨rightV, bottomV⟩⟩

/-- Rust `Triangle::points`. -/
def Triangle.points (t : Triangle) : List Coord := [t.p0, t.p1, t.p2]

/-- Rust `Triangle::from_points`. -/
def Triangle.fromPoints (m : TrigModel) (pts : List Coord) : Triangle :=
  Triangle.new m (pts.getD 0 ⟨0, 0⟩) (pts.getD 1 ⟨0, 0⟩) (pts.getD 2 ⟨0, 0⟩)

/-- Rust `Triangle::contains`: barycentric-style test; `s` and `t` are exact
fractions of cross products (1:1 with the `f32` ratios of the source), and
the test is `s >= 0 && t >= 0 && s + t <= 1`.  For a degenerate triangle the
denominator is zero and every comparison is false, as with the NaN ratios
the Rust code produces there. -/
def Triangle.containsPt (t : Triangle) (point : Coord) : Bool :=
  let pa := Coord.sub t.p1 t.p0
  let pb := Coord.sub t.p2 t.p0
  let q := Coord.sub point t.p0
  let s : Frac := Frac.div (Frac.ofInt (q.crossProduct pb)) (Frac.ofInt (pa.crossProduct pb))
  let tt : Frac := Frac.div (Frac.ofInt (pa.crossProduct q)) (Frac.ofInt (pa.crossProduct pb))
  Frac.le (Frac.ofInt 0) s && Frac.le (Frac.ofInt 0) tt
    && Frac.le (Frac.add s tt) (Frac.ofInt 1)

/-- Rust `Triangle::as_lines`: the three boundary edges. -/
def Triangle.asLines (m : TrigModel) (t : Triangle) : List Line :=
  [Line.new m t.p0 t.p1, Line.new m t.p1 t.p2, Line.new m t.p2 t.p0]

/-! ## Polygon (src/polygon.rs) -/

/-- The free function `is_convex` of src/polygon.rs: scans consecutive edge
cross products, requiring no sign change among the non-zero ones (the
early `return false` is modelled by a sticky `false` flag). -/
def isConvexPts (pts : List Coord) : Bool :=
  let n := pts.length
  ((List.range n).foldl
    (fun (st : Int × Bool) (i : Nat) =>
      let product := (Coord.sub (pts.getD ((i + 1) % n) ⟨0, 0⟩) (pts.getD i ⟨0, 0⟩)).crossProduct
        (Coord.sub (pts.getD ((i + 2) % n) ⟨0, 0⟩) (pts.getD i ⟨0, 0⟩))
      if product ≠ 0 then
        if product * st.1 < 0 then (st.1, false) else (product, st.2)
      else st)
    (0, true)).2

/-- Minimum x over a point list (`Shape::left` default; unwrap on an empty
list panics in Rust, modelled by the fallback 0). -/
def listMinX (pts : List Coord) : Int := ((pts.map fun c => c.x).min?).getD 0

/-- Maximum x over a point list (`Shape::right` default). -/
def listMaxX (pts : List Coord) : Int := ((pts.map fun c => c.x).max?).getD 0

/-- Minimum y over a point list (`Shape::top` default). -/
def listMinY (pts : List Coord) : Int := ((pts.map fun c => c.y).min?).getD 0

/-- Maximum y over a point list (`Shape::bottom` default). -/
def listMaxY (pts : List Coord) : Int := ((pts.map fun c => c.y).max?).getD 0

/-- Rust `Polygon { points, is_regular, center, is_convex }`.  The Rust struct
additionally stores `fpoints`, the `f32` mirror of `points`; it is fully
determined by `points` (exact casts), so it is not duplicated here and
structural equality is unaffected. -/
structure Polygon where
  points : List Coord
  isRegular : Bool
  center : Coord
  isConvex : Bool
deriving DecidableEq, Repr

/-- Rust `Polygon::new`: caches convexity, the bounding-box-midpoint center, and
regularity (all corners at equal rounded distance from the center; vacuously
true when there are no points, as `iter().all` is). -/
def Polygon.new (pts : List Coord) : Polygon :=
  let isConvex := isConvexPts pts
  let center := Coord.midPoint ⟨listMinX pts, listMinY pts⟩ ⟨listMaxX pts, listMaxY pts⟩
  let isRegular :=
    match pts.map fun p => p.distance center with
    | [] => true
    | d :: rest => (d :: rest).all fun x => x = d
  ⟨pts, isRegular, center, isConvex⟩

/-- Rust `Polygon::from_points`. -/
def Polygon.fromPoints (pts : List Coord) : Polygon := Polygon.new pts

/-- Rust `Polygon::as_lines`: consecutive edges plus the closing edge from the
last point back to the first (panics on an empty polygon in Rust; the
fallback pairs 0-coordinates). -/
def Polygon.asLines (m : TrigModel) (p : Polygon) : List Line :=
  ((p.points.zip (p.points.drop 1)).map fun pr => Line.new m pr.1 pr.2)
    ++ [Line.new m (p.points.getLast?.getD ⟨0, 0⟩) (p.points.getD 0 ⟨0, 0⟩)]

/-- Rust `Polygon::contains`: even-odd ray casting over the `f32` mirror of the
points, embedded with exact fractions (the divisions are exact reals here;
the concrete inputs evaluated below keep every intermediate value exactly
representable in `f32` as well). -/
def Polygon.containsPt (poly : Polygon) (point : Coord) : Bool :=
  let fpts := poly.points.map fun c => (Frac.ofInt c.x, Frac.ofInt c.y)
  let n := fpts.length
  let px := Frac.ofInt point.x
  let py := Frac.ofInt point.y
  ((List.range n).foldl
    (fun (st : Nat × Bool) (i : Nat) =>
      let fi := fpts.getD i (⟨0, 1⟩, ⟨0, 1⟩)
      let fj := fpts.getD st.1 (⟨0, 1⟩, ⟨0, 1⟩)
      if ((Frac.lt fi.2 py && Frac.le py fj.2) || (Frac.lt fj.2 py && Frac.le py fi.2))
          && (Frac.le fi.1 px || Frac.le fj.1 px) then
        (i, xor st.2 (Frac.lt (Frac.add fi.1 (Frac.mul
          (Frac.div (Frac.sub py fi.2) (Frac.sub fj.2 fi.2)) (Frac.sub fj.1 fi.1))) px))
      else (i, st.2))
    (n - 1, false)).2

/-- Rust `Line::points`. -/
def Line.points (l : Line) : List Coord := [l.start, l.end_]

/-- Rust `Line::from_points`. -/
def Line.fromPoints (m : TrigModel) (pts : List Coord) : Line :=
  Line.new m (pts.getD 0 ⟨0, 0⟩) (pts.getD 1 ⟨0, 0⟩)

/-- C2: the universal round-trip law `from_points(s.points()) == s` fails for
`Ellipse`: the degenerate ellipse `Ellipse::new((0,0),10,1)` stores
`top == center` and `rotation = 0`, but reconstruction reads the rotation
from `angle_to(center, top) = atan2(0,0)+90 = 90`, so the round-tripped
ellipse differs structurally (rotation 90 vs 0).  The instantiated trig
backend is exact at every argument this evaluation touches. -/
theorem c2_counterexample :
    Ellipse.fromPoints refTrig (Ellipse.points refTrig (Ellipse.new ⟨0, 0⟩ 10 1)) ≠
      Ellipse.new ⟨0, 0⟩ 10 1 := by decide

/-- C2 (amended): the round-trip law holds structurally for Line, Rect,
Triangle and Polygon (all derived fields are deterministic functions of the
stored constructor points), and for Circle whenever the polar projection of
its radius at 0 degrees is the exact offset `(0, -radius)` (true of the
`f32` code for every radius below 11_441_248); for Ellipse it fails (see
the counterexample). -/
theorem c2_roundtrip_amended :
    (∀ (m : TrigModel) (s e : Coord),
      Line.fromPoints m (Line.points (Line.new m s e)) = Line.new m s e) ∧
    (∀ tl br : Coord, Rect.fromPoints (Rect.points (Rect.new tl br)) = Rect.new tl br) ∧
    (∀ (m : TrigModel) (a b c : Coord),
      Triangle.fromPoints m (Triangle.points (Triangle.new m a b c)) = Triangle.new m a b c) ∧
    (∀ pts : List Coord, Polygon.fromPoints (Polygon.new pts).points = Polygon.new pts) ∧
    (∀ (m : TrigModel) (c : Coord) (r : Nat),
      m.polarX r 0 = 0 → m.polarY r 0 = -(r : Int) →
      Circle.fromPoints (Circle.points m (Circle.new c r)) = Circle.new c r) := by
  refine ⟨fun m s e => rfl, fun tl br => rfl, fun m a b c => rfl, fun pts => rfl,
    fun m c r h1 h2 => ?_⟩
  show Circle.fromPoints [c, Coord.fromAngle m c r 0] = Circle.new c r
  unfold Coord.fromAngle
  rw [h1, h2]
  show Circle.new c (Coord.distance c ⟨c.x + 0, c.y + -(r : Int)⟩) = Circle.new c r
  have hd : Coord.distance c ⟨c.x + 0, c.y + -(r : Int)⟩ = r := by
    unfold Coord.distance
    have he : (c.x + 0 - c.x) * (c.x + 0 - c.x) +
        (c.y + -(r : Int) - c.y) * (c.y + -(r : Int) - c.y) = ((r * r : Nat) : Int) := by
      push_cast; ring
    rw [he, Int.toNat_natCast, roundSqrt_sq]
  rw [hd]

/-- C2 witness: the Circle case applied at center (3,4), radius 20, with the
exact trig backend. -/
theorem c2_roundtrip_amended_witness :
    Circle.fromPoints (Circle.points refTrig (Circle.new ⟨3, 4⟩ 20)) = Circle.new ⟨3, 4⟩ 20 :=
  c2_roundtrip_amended.2.2.2.2 refTrig ⟨3, 4⟩ 20 (by decide) (by decide)

/-! ## Line-line intersection (src/intersection/line.rs) -/

/-- The `direction` orientation code: cross sign mapped Less→2, Equal→0,
Greater→1. -/
def direction (p q r : Coord) : Int :=
  let value := (q.y - p.y) * (r.x - q.x) - (q.x - p.x) * (r.y - q.y)
  if value < 0 then 2 else if value = 0 then 0 else 1

/-- Rust `Line::contains_line` (contains/line.rs): both endpoints of `self` are
endpoints of `other`. -/
def Line.containsLine (self other : Line) : Bool :=
  (decide (self.start = other.start) || decide (self.start = other.end_))
    && (decide (self.end_ = other.start) || decide (self.end_ = other.end_))

/-- Rust `comp_line_line`: the shared-endpoint shortcut, then the classic
4-orientation test with collinear-betweenness clauses. -/
def compLineLine (lhs rhs : Line) : Bool :=
  Line.containsLine lhs rhs
    || ((decide (direction lhs.start lhs.end_ rhs.start ≠ direction lhs.start lhs.end_ rhs.end_)
          && decide (direction rhs.start rhs.end_ lhs.start ≠ direction rhs.start rhs.end_ lhs.end_))
      || (decide (direction lhs.start lhs.end_ rhs.start = 0)
          && Coord.isBetween rhs.start lhs.start lhs.end_)
      || (decide (direction lhs.start lhs.end_ rhs.end_ = 0)
          && Coord.isBetween rhs.end_ lhs.start lhs.end_)
      || (decide (direction rhs.start rhs.end_ lhs.start = 0)
          && Coord.isBetween lhs.start rhs.start rhs.end_)
      || (decide (direction rhs.start rhs.end_ lhs.end_ = 0)
          && Coord.isBetween lhs.end_ rhs.start rhs.end_))

/-! ## Shared intersection helpers (src/intersection/shared.rs) -/

/-- Rust `line_circle`: the discriminant test of the quadratic obtained by
substituting the parametrized segment into the circle equation, with the
root-in-open-unit-interval checks `0 < t < 1` expressed exactly (all
quantities are integers; `a > 0` whenever the discriminant guard passes,
since `a = 0` forces `b = 0` and a non-positive discriminant). -/
def lineCircle (line : Line) (circle : Circle) : Bool :=
  let ax := line.start.x - circle.center.x
  let ay := line.start.y - circle.center.y
  let bx := line.end_.x - circle.center.x
  let by2 := line.end_.y - circle.center.y
  let a := (bx - ax) * (bx - ax) + (by2 - ay) * (by2 - ay)
  let b := 2 * (ax * (bx - ax) + ay * (by2 - ay))
  let disc := b * b - 4 * a * (ax * ax + ay * ay - (circle.radius : Int) * (circle.radius : Int))
  if disc ≤ 0 then false
  else
    ((decide (b < 0) || decide (b * b < disc))
        && (decide (0 < 2 * a + b) && decide (disc < (2 * a + b) * (2 * a + b))))
      || ((decide (0 < -b) && decide (disc < b * b))
        && (decide (0 < 2 * a + b) || decide ((2 * a + b) * (2 * a + b) < disc)))

/-- Rust `Rect::as_lines`: the four boundary edges; note the Rust method calls the
inherent (stored-field) `top_left`/`bottom_right` and the normalized trait
defaults `top_right`/`bottom_left`. -/
def Rect.asLines (m : TrigModel) (r : Rect) : List Line :=
  [Line.new m r.topLeft ⟨r.right, r.top⟩,
    Line.new m ⟨r.right, r.top⟩ r.bottomRight,
    Line.new m r.bottomRight ⟨r.left, r.bottom⟩,
    Line.new m ⟨r.left, r.bottom⟩ r.topLeft]

/-- Rust `line_rect`: any rect edge intersects the line. -/
def lineRect (m : TrigModel) (line : Line) (rect : Rect) : Bool :=
  (Rect.asLines m rect).any fun rectLine => compLineLine rectLine line

/-- Rust `line_triangle`: any triangle edge intersects the line. -/
def lineTriangle (m : TrigModel) (line : Line) (triangle : Triangle) : Bool :=
  (Triangle.asLines m triangle).any fun triLine => compLineLine triLine line

/-- Rust `line_polygon`: any polygon edge intersects the line. -/
def linePolygon (m : TrigModel) (line : Line) (poly : Polygon) : Bool :=
  (Polygon.asLines m poly).any fun polyLine => compLineLine polyLine line

/-- Rust `lines_lines`: some edge of the first family meets some edge of the
second. -/
def linesLines (lhs rhs : List Line) : Bool :=
  lhs.any fun l => rhs.any fun r => compLineLine l r

/-- Rust `Line::translate_by` (the `Shape` default: shift both points, rebuild). -/
def Line.translateBy (m : TrigModel) (l : Line) (delta : Coord) : Line :=
  Line.new m (Coord.add l.start delta) (Coord.add l.end_ delta)

/-- Rust `Line::rotate_around` (the `Shape` default: re-project both points around
the pivot at their distances, angles shifted by `degrees`). -/
def Line.rotateAround (m : TrigModel) (l : Line) (degrees : Int) (pivot : Coord) : Line :=
  Line.new m (rotatePoint m pivot l.start degrees) (rotatePoint m pivot l.end_ degrees)

/-- Real comparison `sqrt d ≤ u` for a non-negative radicand, exactly. -/
def sqrtLeFrac (d u : Frac) : Bool :=
  Frac.le ⟨0, 1⟩ u && Frac.le d (Frac.mul u u)

/-- Real comparison `u ≤ sqrt d` for a non-negative radicand, exactly. -/
def sqrtGeFrac (d u : Frac) : Bool :=
  Frac.le u ⟨0, 1⟩ || Frac.le (Frac.mul u u) d

/-- Exact form of `(0.0..=1.0).contains((-b + sqrt d) / 2 / a)` (for `d > 0`). -/
def quadRootPlusInUnit (a b d : Frac) : Bool :=
  let twoAB := Frac.add (Frac.mul ⟨2, 1⟩ a) b
  (Frac.lt ⟨0, 1⟩ a && sqrtGeFrac d b && sqrtLeFrac d twoAB)
    || (Frac.lt a ⟨0, 1⟩ && sqrtLeFrac d b && sqrtGeFrac d twoAB)

/-- Exact form of `(0.0..=1.0).contains((-b - sqrt d) / 2 / a)` (for `d > 0`). -/
def quadRootMinusInUnit (a b d : Frac) : Bool :=
  let negTwoAB := Frac.neg (Frac.add (Frac.mul ⟨2, 1⟩ a) b)
  (Frac.lt ⟨0, 1⟩ a && sqrtLeFrac d (Frac.neg b) && sqrtGeFrac d negTwoAB)
    || (Frac.lt a ⟨0, 1⟩ && sqrtGeFrac d (Frac.neg b) && sqrtLeFrac d negTwoAB)

/-- Rust `line_ellipse`: rotate the segment into the ellipse frame, handle the
degenerate single-pixel axes and point segments, then solve the quadratic
against the canonical ellipse equation in exact arithmetic. -/
def lineEllipse (m : TrigModel) (line : Line) (ellipse : Ellipse) : Bool :=
  let temp := Line.rotateAround m line (-ellipse.rotation) ellipse.center
  if ellipse.width = 1 ∨ ellipse.height = 1 then Line.containsPt temp ellipse.topLeftPt
  else if temp.lineType = .point then Ellipse.containsPt ellipse temp.start
  else
    let l2 := Line.rotateAround m (Line.translateBy m line (Coord.neg ellipse.center))
      (-ellipse.rotation) ⟨0, 0⟩
    let x1 := Frac.ofInt l2.start.x
    let y1 := Frac.ofInt l2.start.y
    let x2 := Frac.ofInt l2.end_.x
    let y2 := Frac.ofInt l2.end_.y
    let w : Frac := ⟨(ellipse.width : Int), 2⟩
    let h : Frac := ⟨(ellipse.height : Int), 2⟩
    let a := Frac.add
      (Frac.div (Frac.div (Frac.mul (Frac.sub x2 x1) (Frac.sub x2 x1)) w) w)
      (Frac.div (Frac.div (Frac.mul (Frac.sub y2 y1) (Frac.sub y2 y1)) h) h)
    let b := Frac.add
      (Frac.div (Frac.div (Frac.mul (Frac.mul ⟨2, 1⟩ x1) (Frac.sub x2 x1)) w) w)
      (Frac.div (Frac.div (Frac.mul (Frac.mul ⟨2, 1⟩ y1) (Frac.sub y2 y1)) h) h)
    let c := Frac.sub
      (Frac.add (Frac.div (Frac.div (Frac.mul x1 x1) w) w)
        (Frac.div (Frac.div (Frac.mul y1 y1) h) h))
      ⟨1, 1⟩
    let d := Frac.sub (Frac.mul b b) (Frac.mul (Frac.mul ⟨4, 1⟩ a) c)
    if d.num = 0 ∧ d.den ≠ 0 then
      let t := Frac.div (Frac.div (Frac.neg b) ⟨2, 1⟩) a
      Frac.le ⟨0, 1⟩ t && Frac.le t ⟨1, 1⟩
    else if Frac.lt ⟨0, 1⟩ d then
      quadRootPlusInUnit a b d || quadRootMinusInUnit a b d
    else false

/-- Rust `rect_circle`: any rect edge intersects the circle. -/
def rectCircle (m : TrigModel) (rect : Rect) (circle : Circle) : Bool :=
  (Rect.asLines m rect).any fun l => lineCircle l circle

/-- Rust `rect_ellipse`: any rect edge intersects the ellipse. -/
def rectEllipse (m : TrigModel) (rect : Rect) (ellipse : Ellipse) : Bool :=
  (Rect.asLines m rect).any fun l => lineEllipse m l ellipse

/-- Rust `polygon_ellipse`: any polygon edge intersects the ellipse. -/
def polygonEllipse (m : TrigModel) (poly : Polygon) (ellipse : Ellipse) : Bool :=
  (Polygon.asLines m poly).any fun l => lineEllipse m l ellipse

/-- Rust `polygon_circle`: any polygon edge intersects the circle. -/
def polygonCircle (m : TrigModel) (poly : Polygon) (circle : Circle) : Bool :=
  (Polygon.asLines m poly).any fun l => lineCircle l circle

/-- Rust `triangle_ellipse`: any triangle edge intersects the ellipse. -/
def triangleEllipse (m : TrigModel) (triangle : Triangle) (ellipse : Ellipse) : Bool :=
  (Triangle.asLines m triangle).any fun l => lineEllipse m l ellipse

/-- Rust `triangle_circle`: any triangle edge intersects the circle. -/
def triangleCircle (m : TrigModel) (triangle : Triangle) (circle : Circle) : Bool :=
  (Triangle.asLines m triangle).any fun l => lineCircle l circle

/-- Absolute value of a fraction. -/
def Frac.abs (a : Frac) : Frac := ⟨(a.num.natAbs : Int), (a.den.natAbs : Int)⟩

/-- The body of `iterate`'s bounded refinement loop, one level `t` per call;
`innerCoef`/`outerCoef` of the model stand for the ten precomputed `f64`
coefficients `0.5/cos(pi/num_nodes)` and `0.5/cos(cos(pi/num_nodes)*pi/num_nodes)`
(`num_nodes = 4 << t`); everything else is exact ring arithmetic. -/
def iterateLoop (m : TrigModel) (x y rr : Frac) :
    Nat → Nat → Frac → Frac → Frac → Frac → Bool
  | 0, _, _, _, _, _ => false
  | fuel+1, t, c0x, c0y, c2x, c2y =>
    let c1x := Frac.mul (Frac.add c0x c2x) (m.innerCoef t)
    let c1y := Frac.mul (Frac.add c0y c2y) (m.innerCoef t)
    let tx := Frac.sub x c1x
    let ty := Frac.sub y c1y
    if Frac.le (Frac.add (Frac.mul tx tx) (Frac.mul ty ty)) rr then true
    else
      let t2x := Frac.sub c2x c1x
      let t2y := Frac.sub c2y c1y
      let dot2 := Frac.add (Frac.mul tx t2x) (Frac.mul ty t2y)
      let cross2 := Frac.sub (Frac.mul ty t2x) (Frac.mul tx t2y)
      let len2 := Frac.add (Frac.mul t2x t2x) (Frac.mul t2y t2y)
      if Frac.le ⟨0, 1⟩ dot2 && Frac.le dot2 len2
          && (Frac.le ⟨0, 1⟩ cross2 || Frac.le (Frac.mul cross2 cross2) (Frac.mul rr len2)) then
        true
      else
        let t0x := Frac.sub c0x c1x
        let t0y := Frac.sub c0y c1y
        let dot0 := Frac.add (Frac.mul tx t0x) (Frac.mul ty t0y)
        let cross0 := Frac.sub (Frac.mul ty t0x) (Frac.mul tx t0y)
        let len0 := Frac.add (Frac.mul t0x t0x) (Frac.mul t0y t0y)
        if Frac.le ⟨0, 1⟩ dot0 && Frac.le dot0 len0
            && (Frac.le cross0 ⟨0, 1⟩ || Frac.le (Frac.mul cross0 cross0) (Frac.mul rr len0)) then
          true
        else
          let c3x := Frac.mul (Frac.add c0x c1x) (m.outerCoef t)
          let c3y := Frac.mul (Frac.add c0y c1y) (m.outerCoef t)
          if Frac.lt (Frac.add (Frac.mul (Frac.sub c3x x) (Frac.sub c3x x))
              (Frac.mul (Frac.sub c3y y) (Frac.sub c3y y))) rr then
            iterateLoop m x y rr fuel (t+1) c0x c0y c1x c1y
          else
            let c4x := Frac.add (Frac.sub c1x c3x) c1x
            let c4y := Frac.add (Frac.sub c1y c3y) c1y
            if Frac.lt (Frac.add (Frac.mul (Frac.sub c4x x) (Frac.sub c4x x))
                (Frac.mul (Frac.sub c4y y) (Frac.sub c4y y))) rr then
              iterateLoop m x y rr fuel (t+1) c1x c1y c2x c2y
            else
              let t3x := Frac.sub c3x c1x
              let t3y := Frac.sub c3y c1y
              let dot3 := Frac.add (Frac.mul tx t3x) (Frac.mul ty t3y)
              let cross3 := Frac.sub (Frac.mul ty t3x) (Frac.mul tx t3y)
              let len3 := Frac.add (Frac.mul t3x t3x) (Frac.mul t3y t3y)
              if Frac.le cross3 ⟨0, 1⟩
                  || Frac.lt (Frac.mul cross3 cross3) (Frac.mul rr len3) then
                if Frac.lt ⟨0, 1⟩ dot3 then
                  if Frac.le (Frac.abs dot3) len3
                      || Frac.le ⟨0, 1⟩ (Frac.add
                        (Frac.mul (Frac.sub x c3x) (Frac.sub c0x c3x))
                        (Frac.mul (Frac.sub y c3y) (Frac.sub c0y c3y))) then
                    iterateLoop m x y rr fuel (t+1) c0x c0y c1x c1y
                  else false
                else
                  if Frac.le (Frac.neg dot3) len3
                      || Frac.le ⟨0, 1⟩ (Frac.add
                        (Frac.mul (Frac.sub x c4x) (Frac.sub c2x c4x))
                        (Frac.mul (Frac.sub y c4y) (Frac.sub c2y c4y))) then
                    iterateLoop m x y rr fuel (t+1) c1x c1y c2x c2y
                  else false
              else false

/-- Rust `iterate`: ten refinement levels, starting at level 1. -/
def iterateFn (m : TrigModel) (x y c0x c0y c2x c2y rr : Frac) : Bool :=
  iterateLoop m x y rr 10 1 c0x c0y c2x c2y

/-- Rust `ellipse_circle`: the distance-based fast-accept rules followed by the
`iterate` refinement for the ambiguous band.  The source sets both `w` and
`h` to `ellipse.width()` (kept faithfully). -/
def ellipseCircle (m : TrigModel) (ellipse : Ellipse) (circle : Circle) : Bool :=
  let w := Frac.ofInt (ellipse.width : Int)
  let h := Frac.ofInt (ellipse.width : Int)
  let r := Frac.ofInt (circle.radius : Int)
  let x := Frac.abs (Frac.sub (Frac.ofInt circle.center.x) (Frac.ofInt ellipse.center.x))
  let y := Frac.abs (Frac.sub (Frac.ofInt circle.center.y) (Frac.ofInt ellipse.center.y))
  let rr := Frac.mul r r
  if Frac.le (Frac.add (Frac.mul x x) (Frac.mul (Frac.sub h y) (Frac.sub h y))) rr
      || Frac.le (Frac.add (Frac.mul (Frac.sub w x) (Frac.sub w x)) (Frac.mul y y)) rr
      || Frac.le (Frac.add (Frac.mul x h) (Frac.mul y w)) (Frac.mul w h)
      || (Frac.le (Frac.mul (Frac.sub (Frac.add (Frac.mul x h) (Frac.mul y w)) (Frac.mul w h))
            (Frac.sub (Frac.add (Frac.mul x h) (Frac.mul y w)) (Frac.mul w h)))
          (Frac.mul rr (Frac.add (Frac.mul w w) (Frac.mul h h)))
        && Frac.le (Frac.neg (Frac.mul h h)) (Frac.sub (Frac.mul x w) (Frac.mul y h))
        && Frac.le (Frac.sub (Frac.mul x w) (Frac.mul y h)) (Frac.mul w w)) then
    true
  else if Frac.le (Frac.add (Frac.mul (Frac.sub x w) (Frac.sub x w))
        (Frac.mul (Frac.sub y h) (Frac.sub y h))) rr
      || (Frac.le x w && Frac.le (Frac.sub y r) h)
      || (Frac.le y h && Frac.le (Frac.sub x r) w) then
    iterateFn m x y w ⟨0, 1⟩ ⟨0, 1⟩ h rr
  else false

/-! ## Rect-rect intersection (src/intersection/rect.rs) -/

/-- Rust `diff_rect_rect`: for each of the four extents of `lhs`, whether it lies
(weakly) on one side of both corresponding extents of `rhs`. -/
def diffRectRect (lhs rhs : Rect) : Bool × Bool × Bool × Bool :=
  ((decide (lhs.left ≤ rhs.left) && decide (lhs.left ≤ rhs.right))
      || (decide (rhs.left ≤ lhs.left) && decide (rhs.right ≤ lhs.left)),
    (decide (lhs.top ≤ rhs.top) && decide (lhs.top ≤ rhs.bottom))
      || (decide (rhs.top ≤ lhs.top) && decide (rhs.bottom ≤ lhs.top)),
    (decide (lhs.right ≤ rhs.left) && decide (lhs.right ≤ rhs.right))
      || (decide (rhs.left ≤ lhs.right) && decide (rhs.right ≤ lhs.right)),
    (decide (lhs.bottom ≤ rhs.bottom) && decide (lhs.bottom ≤ rhs.top))
      || (decide (rhs.bottom ≤ lhs.bottom) && decide (rhs.top ≤ lhs.bottom)))

/-- Rust `comp_rect_rect`: the two diff vectors must disagree in all four slots,
or the rects coincide exactly. -/
def compRectRect (lhs rhs : Rect) : Bool :=
  let a := diffRectRect lhs rhs
  let b := diffRectRect rhs lhs
  (decide (a.1 ≠ b.1) && decide (a.2.1 ≠ b.2.1)
      && decide (a.2.2.1 ≠ b.2.2.1) && decide (a.2.2.2 ≠ b.2.2.2))
    || (decide (lhs.topLeft = rhs.topLeft) && decide (lhs.bottomRight = rhs.bottomRight))

/-! ## Ellipse discretisation (Ellipse::as_polygon) -/

/-- Rust `Polygon::rotate` (the `Shape` default: rotate all points around the
cached center and rebuild). -/
def Polygon.rotate (m : TrigModel) (p : Polygon) (degrees : Int) : Polygon :=
  Polygon.fromPoints (rotatePoints m p.center p.points degrees)

/-- Rust `discretise_ellipse`: sample the ellipse at `segments` equal angle steps
of `6.29/segments` (the accumulated `f64` sum `phi` is the step times the
1-based index), truncating each sampled coordinate to an integer as Rust
`as isize` does. -/
def discretiseEllipse (m : TrigModel) (x y a b : Frac) (segments : Nat) : List Coord :=
  (List.range segments).map fun i : Nat =>
    let phi := Frac.mul (Frac.div ⟨629, 100⟩ (Frac.ofInt segments)) (Frac.ofInt ((i : Int) + 1))
    ⟨(Frac.add x (Frac.mul a (m.cosF phi))).trunc, (Frac.add y (Frac.mul b (m.sinF phi))).trunc⟩

/-- Rust `Ellipse::as_polygon`: discretise with
`segments = max(8, floor(sqrt(((w+h)/2)*20)))` half-axis samples, then
rotate by the stored angle. -/
def Ellipse.asPolygon (m : TrigModel) (e : Ellipse) : Polygon :=
  let x := Frac.ofInt e.center.x
  let y := Frac.ofInt e.center.y
  let w : Frac := ⟨(e.width : Int), 2⟩
  let h : Frac := ⟨(e.height : Int), 2⟩
  let segments := max 8
    (intSqrt (Frac.floor (Frac.mul (Frac.div (Frac.add w h) ⟨2, 1⟩) ⟨20, 1⟩)).toNat)
  Polygon.rotate m (Polygon.fromPoints (discretiseEllipse m x y w h segments)) e.rotation

/-! ## The per-kind `IntersectsShape` methods -/

/-- Rust `Line::intersects_rect`. -/
def Line.intersectsRect (m : TrigModel) (self : Line) (rect : Rect) : Bool :=
  lineRect m self rect

/-- Rust `Line::intersects_circle`. -/
def Line.intersectsCircle (self : Line) (circle : Circle) : Bool :=
  lineCircle self circle

/-- Rust `Line::intersects_line`. -/
def Line.intersectsLine (self : Line) (line : Line) : Bool :=
  compLineLine self line

/-- Rust `Line::intersects_triangle`. -/
def Line.intersectsTriangle (m : TrigModel) (self : Line) (triangle : Triangle) : Bool :=
  lineTriangle m self triangle

/-- Modelled from the spec: `Line::intersects_ellipse` is commented out in
the given sources (only its helper `line_ellipse` and the mirror
`Ellipse::intersects_line` remain); per the spec's symmetric dispatch it
delegates to the shared segment-ellipse test. -/
def Line.intersectsEllipse (m : TrigModel) (self : Line) (ellipse : Ellipse) : Bool :=
  lineEllipse m self ellipse

/-- Rust `Line::intersects_polygon`. -/
def Line.intersectsPolygon (m : TrigModel) (self : Line) (polygon : Polygon) : Bool :=
  linePolygon m self polygon

/-- Rust `Rect::intersects_rect`. -/
def Rect.intersectsRect (self rect : Rect) : Bool := compRectRect self rect

/-- Rust `Rect::intersects_circle`. -/
def Rect.intersectsCircle (m : TrigModel) (self : Rect) (circle : Circle) : Bool :=
  rectCircle m self circle

/-- Rust `Rect::intersects_line`. -/
def Rect.intersectsLine (m : TrigModel) (self : Rect) (line : Line) : Bool :=
  lineRect m line self

/-- Rust `Rect::intersects_triangle`. -/
def Rect.intersectsTriangle (m : TrigModel) (self : Rect) (triangle : Triangle) : Bool :=
  linesLines (Rect.asLines m self) (Triangle.asLines m triangle)

/-- Rust `Rect::intersects_ellipse`. -/
def Rect.intersectsEllipse (m : TrigModel) (self : Rect) (ellipse : Ellipse) : Bool :=
  rectEllipse m self ellipse

/-- Rust `Rect::intersects_polygon`. -/
def Rect.intersectsPolygon (m : TrigModel) (self : Rect) (polygon : Polygon) : Bool :=
  linesLines (Rect.asLines m self) (Polygon.asLines m polygon)

/-- Rust `Circle::intersects_rect`. -/
def Circle.intersectsRect (m : TrigModel) (self : Circle) (rect : Rect) : Bool :=
  rectCircle m rect self

/-- Rust `Circle::intersects_line`. -/
def Circle.intersectsLine (self : Circle) (line : Line) : Bool :=
  lineCircle line self

/-- Rust `Circle::intersects_triangle`. -/
def Circle.intersectsTriangle (m : TrigModel) (self : Circle) (triangle : Triangle) : Bool :=
  triangleCircle m triangle self

/-- Rust `Circle::intersects_ellipse`. -/
def Circle.intersectsEllipse (m : TrigModel) (self : Circle) (ellipse : Ellipse) : Bool :=
  ellipseCircle m ellipse self

/-- Rust `Circle::intersects_polygon`. -/
def Circle.intersectsPolygon (m : TrigModel) (self : Circle) (polygon : Polygon) : Bool :=
  polygonCircle m polygon self

/-- Rust `Triangle::intersects_rect`. -/
def Triangle.intersectsRect (m : TrigModel) (self : Triangle) (rect : Rect) : Bool :=
  linesLines (Rect.asLines m rect) (Triangle.asLines m self)

/-- Rust `Triangle::intersects_circle`. -/
def Triangle.intersectsCircle (m : TrigModel) (self : Triangle) (circle : Circle) : Bool :=
  triangleCircle m self circle

/-- Rust `Triangle::intersects_line`. -/
def Triangle.intersectsLine (m : TrigModel) (self : Triangle) (line : Line) : Bool :=
  lineTriangle m line self

/-- Rust `Triangle::intersects_triangle`. -/
def Triangle.intersectsTriangle (m : TrigModel) (self triangle : Triangle) : Bool :=
  linesLines (Triangle.asLines m triangle) (Triangle.asLines m self)

/-- Rust `Triangle::intersects_ellipse`. -/
def Triangle.intersectsEllipse (m : TrigModel) (self : Triangle) (ellipse : Ellipse) : Bool :=
  triangleEllipse m self ellipse

/-- Rust `Triangle::intersects_polygon`. -/
def Triangle.intersectsPolygon (m : TrigModel) (self : Triangle) (polygon : Polygon) : Bool :=
  linesLines (Polygon.asLines m polygon) (Triangle.asLines m self)

/-- Rust `Ellipse::intersects_rect`. -/
def Ellipse.intersectsRect (m : TrigModel) (self : Ellipse) (rect : Rect) : Bool :=
  rectEllipse m rect self

/-- Rust `Ellipse::intersects_circle`. -/
def Ellipse.intersectsCircle (m : TrigModel) (self : Ellipse) (circle : Circle) : Bool :=
  ellipseCircle m self circle

/-- Rust `Ellipse::intersects_line`. -/
def Ellipse.intersectsLine (m : TrigModel) (self : Ellipse) (line : Line) : Bool :=
  lineEllipse m line self

/-- Rust `Ellipse::intersects_triangle`. -/
def Ellipse.intersectsTriangle (m : TrigModel) (self : Ellipse) (triangle : Triangle) : Bool :=
  triangleEllipse m triangle self

/-- Rust `Ellipse::intersects_ellipse`: both ellipses are discretised and their
edge families compared. -/
def Ellipse.intersectsEllipse (m : TrigModel) (self ellipse : Ellipse) : Bool :=
  linesLines (Polygon.asLines m (Ellipse.asPolygon m self))
    (Polygon.asLines m (Ellipse.asPolygon m ellipse))

/-- Rust `Ellipse::intersects_polygon`. -/
def Ellipse.intersectsPolygon (m : TrigModel) (self : Ellipse) (polygon : Polygon) : Bool :=
  polygonEllipse m polygon self

/-- Rust `Polygon::intersects_rect`. -/
def Polygon.intersectsRect (m : TrigModel) (self : Polygon) (rect : Rect) : Bool :=
  linesLines (Polygon.asLines m self) (Rect.asLines m rect)

/-- Rust `Polygon::intersects_circle`. -/
def Polygon.intersectsCircle (m : TrigModel) (self : Polygon) (circle : Circle) : Bool :=
  polygonCircle m self circle

/-- Rust `Polygon::intersects_line`. -/
def Polygon.intersectsLine (m : TrigModel) (self : Polygon) (line : Line) : Bool :=
  linePolygon m line self

/-- Rust `Polygon::intersects_triangle`. -/
def Polygon.intersectsTriangle (m : TrigModel) (self : Polygon) (triangle : Triangle) : Bool :=
  linesLines (Polygon.asLines m self) (Triangle.asLines m triangle)

/-- Modelled from the spec: `Polygon::intersects_ellipse` is commented out in
the given sources (only its helper `polygon_ellipse` and the mirror
`Ellipse::intersects_polygon` remain); per the spec's symmetric dispatch it
delegates to the shared helper. -/
def Polygon.intersectsEllipse (m : TrigModel) (self : Polygon) (ellipse : Ellipse) : Bool :=
  polygonEllipse m self ellipse

/-- Rust `Polygon::intersects_polygon`. -/
def Polygon.intersectsPolygon (m : TrigModel) (self polygon : Polygon) : Bool :=
  linesLines (Polygon.asLines m self) (Polygon.asLines m polygon)

/-! ## The per-kind `ContainsShape` methods used by the claims -/

/-- The `contains_points` helper of contains/mod.rs: every point of the other
shape is individually contained. -/
def containsPoints (contains : Coord → Bool) (pts : List Coord) : Bool := pts.all contains

/-- Rust `Rect::contains_rect` (trait default: `contains_points`). -/
def Rect.containsRect (self other : Rect) : Bool :=
  containsPoints (Rect.containsPt self) (Rect.points other)

/-- Rust `Rect::contains_line` (trait default). -/
def Rect.containsLine (self : Rect) (line : Line) : Bool :=
  containsPoints (Rect.containsPt self) (Line.points line)

/-- Rust `Rect::contains_circle` (contains/rect.rs override): the center-distance
heuristic `distance(centers) - radius/2 < max(width,height)/2` in `usize`
arithmetic (truncated subtraction; the Rust debug build would panic when
`radius/2` exceeds the distance). -/
def Rect.containsCircle (self : Rect) (circle : Circle) : Bool :=
  decide (self.center.distance circle.center - circle.radius / 2
    < max self.width self.height / 2)

/-- Rust `Rect::contains_ellipse` (contains/rect.rs override): center inside AND
the boundary-intersection predicate returns true. -/
def Rect.containsEllipse (m : TrigModel) (self : Rect) (ellipse : Ellipse) : Bool :=
  if Rect.containsPt self ellipse.center then Rect.intersectsEllipse m self ellipse
  else false

/-- Rust `Triangle::contains_circle` (contains/triangle.rs override): center
inside AND the boundary-intersection predicate returns true. -/
def Triangle.containsCircle (m : TrigModel) (self : Triangle) (circle : Circle) : Bool :=
  if Triangle.containsPt self circle.center then Triangle.intersectsCircle m self circle
  else false

/-- Rust `Polygon::contains_rect`: `contains_points` and NOT intersecting. -/
def Polygon.containsRect (m : TrigModel) (self : Polygon) (rect : Rect) : Bool :=
  containsPoints (Polygon.containsPt self) (Rect.points rect)
    && !(Polygon.intersectsRect m self rect)

/-- Rust `Polygon::contains_circle`: `contains_points` and NOT intersecting. -/
def Polygon.containsCircle (m : TrigModel) (self : Polygon) (circle : Circle) : Bool :=
  containsPoints (Polygon.containsPt self) (Circle.points m circle)
    && !(Polygon.intersectsCircle m self circle)

/-- Rust `Polygon::contains_line`: `contains_points` and NOT intersecting. -/
def Polygon.containsLine (m : TrigModel) (self : Polygon) (line : Line) : Bool :=
  containsPoints (Polygon.containsPt self) (Line.points line)
    && !(Polygon.intersectsLine m self line)

/-- Rust `Polygon::contains_triangle`: `contains_points` and NOT intersecting. -/
def Polygon.containsTriangle (m : TrigModel) (self : Polygon) (triangle : Triangle) : Bool :=
  containsPoints (Polygon.containsPt self) (Triangle.points triangle)
    && !(Polygon.intersectsTriangle m self triangle)

/-- Rust `Polygon::contains_ellipse`: `contains_points` and NOT intersecting. -/
def Polygon.containsEllipse (m : TrigModel) (self : Polygon) (ellipse : Ellipse) : Bool :=
  containsPoints (Polygon.containsPt self) (Ellipse.points m ellipse)
    && !(Polygon.intersectsEllipse m self ellipse)

/-- Rust `Polygon::contains_polygon`: `contains_points` and NOT intersecting. -/
def Polygon.containsPolygon (m : TrigModel) (self other : Polygon) : Bool :=
  containsPoints (Polygon.containsPt self) other.points
    && !(Polygon.intersectsPolygon m self other)

theorem direction_pp (p r : Coord) : direction p p r = 0 := by
  have h : (p.y - p.y) * (r.x - p.x) - (p.x - p.x) * (r.y - p.y) = 0 := by ring
  simp [direction, h]

theorem isBetween_self (p : Coord) : Coord.isBetween p p p = true := by
  simp [Coord.isBetween]

set_option maxHeartbeats 2000000 in
theorem compLineLine_comm (a b : Line) : compLineLine a b = compLineLine b a := by
  have key : ∀ u v : Line, compLineLine u v = true → compLineLine v u = true := by
    intro u v h
    unfold compLineLine at h ⊢
    simp only [Bool.or_eq_true, Bool.and_eq_true, decide_eq_true_eq, Line.containsLine] at h ⊢
    rcases h with hcl | ho
    · obtain ⟨h1 | h1, h2 | h2⟩ := hcl
      · -- u.start = v.start and u.end_ = v.start: u degenerates to v.start
        right
        have hd : direction u.start u.end_ v.start = 0 := by rw [h1, h2]; exact direction_pp _ _
        have hb : Coord.isBetween v.start u.start u.end_ = true := by
          rw [h1, h2]; exact isBetween_self _
        exact Or.inl (Or.inr ⟨hd, hb⟩)
      · -- straight shared endpoints
        exact Or.inl ⟨Or.inl h1.symm, Or.inr h2.symm⟩
      · -- reversed shared endpoints
        exact Or.inl ⟨Or.inr h2.symm, Or.inl h1.symm⟩
      · -- u.start = v.end_ and u.end_ = v.end_: u degenerates to v.end_
        right
        have hd : direction u.start u.end_ v.end_ = 0 := by rw [h1, h2]; exact direction_pp _ _
        have hb : Coord.isBetween v.end_ u.start u.end_ = true := by
          rw [h1, h2]; exact isBetween_self _
        exact Or.inr ⟨hd, hb⟩
    · right
      rcases ho with ((((h | h) | h) | h) | h)
      · exact Or.inl (Or.inl (Or.inl (Or.inl ⟨h.2, h.1⟩)))
      · exact Or.inl (Or.inr h)
      · exact Or.inr h
      · exact Or.inl (Or.inl (Or.inl (Or.inr h)))
      · exact Or.inl (Or.inl (Or.inr h))
  by_cases hab : compLineLine a b = true
  · rw [hab, key a b hab]
  · by_cases hba : compLineLine b a = true
    · exact absurd (key b a hba) hab
    · rw [Bool.not_eq_true] at hab hba
      rw [hab, hba]

theorem linesLines_comm (lhs rhs : List Line) : linesLines lhs rhs = linesLines rhs lhs := by
  unfold linesLines
  rw [Bool.eq_iff_iff]
  simp only [List.any_eq_true]
  constructor
  · rintro ⟨l, hl, r, hr, h⟩
    rw [compLineLine_comm l r] at h
    exact ⟨r, hr, l, hl, h⟩
  · rintro ⟨r, hr, l, hl, h⟩
    rw [compLineLine_comm r l] at h
    exact ⟨l, hl, r, hr, h⟩

theorem compRectRect_comm (a b : Rect) : compRectRect a b = compRectRect b a := by
  unfold compRectRect
  rw [Bool.eq_iff_iff]
  simp only [Bool.or_eq_true, Bool.and_eq_true, decide_eq_true_eq]
  constructor
  · rintro (⟨⟨⟨h1, h2⟩, h3⟩, h4⟩ | ⟨h5, h6⟩)
    · exact Or.inl ⟨⟨⟨h1.symm, h2.symm⟩, h3.symm⟩, h4.symm⟩
    · exact Or.inr ⟨h5.symm, h6.symm⟩
  · rintro (⟨⟨⟨h1, h2⟩, h3⟩, h4⟩ | ⟨h5, h6⟩)
    · exact Or.inl ⟨⟨⟨h1.symm, h2.symm⟩, h3.symm⟩, h4.symm⟩
    · exact Or.inr ⟨h5.symm, h6.symm⟩

theorem circleCircle_comm (a b : Circle) :
    Circle.intersectsCircle a b = Circle.intersectsCircle b a := by
  unfold Circle.intersectsCircle
  rw [Coord.distance_comm, Nat.max_comm]

/-- C3: intersection is symmetric for every ordered pair of the six concrete
kinds under any trigonometric backend: the cross-kind methods of both
operands delegate to the same shared helper with the same argument order,
and the four pairs that do not (`line-line`, `rect-rect`, `circle-circle`,
and the `lines_lines` families with swapped operand order) are proved
commutative. -/
theorem c3_intersection_symmetric (m : TrigModel) :
    (∀ a b : Line, Line.intersectsLine a b = Line.intersectsLine b a) ∧
    (∀ (l : Line) (r : Rect), Line.intersectsRect m l r = Rect.intersectsLine m r l) ∧
    (∀ (l : Line) (c : Circle), Line.intersectsCircle l c = Circle.intersectsLine c l) ∧
    (∀ (l : Line) (t : Triangle), Line.intersectsTriangle m l t = Triangle.intersectsLine m t l) ∧
    (∀ (l : Line) (e : Ellipse), Line.intersectsEllipse m l e = Ellipse.intersectsLine m e l) ∧
    (∀ (l : Line) (p : Polygon), Line.intersectsPolygon m l p = Polygon.intersectsLine m p l) ∧
    (∀ a b : Rect, Rect.intersectsRect a b = Rect.intersectsRect b a) ∧
    (∀ (r : Rect) (c : Circle), Rect.intersectsCircle m r c = Circle.intersectsRect m c r) ∧
    (∀ (r : Rect) (t : Triangle), Rect.intersectsTriangle m r t = Triangle.intersectsRect m t r) ∧
    (∀ (r : Rect) (e : Ellipse), Rect.intersectsEllipse m r e = Ellipse.intersectsRect m e r) ∧
    (∀ (r : Rect) (p : Polygon), Rect.intersectsPolygon m r p = Polygon.intersectsRect m p r) ∧
    (∀ a b : Circle, Circle.intersectsCircle a b = Circle.intersectsCircle b a) ∧
    (∀ (c : Circle) (t : Triangle),
      Circle.intersectsTriangle m c t = Triangle.intersectsCircle m t c) ∧
    (∀ (c : Circle) (e : Ellipse), Circle.intersectsEllipse m c e = Ellipse.intersectsCircle m e c) ∧
    (∀ (c : Circle) (p : Polygon), Circle.intersectsPolygon m c p = Polygon.intersectsCircle m p c) ∧
    (∀ a b : Triangle, Triangle.intersectsTriangle m a b = Triangle.intersectsTriangle m b a) ∧
    (∀ (t : Triangle) (e : Ellipse),
      Triangle.intersectsEllipse m t e = Ellipse.intersectsTriangle m e t) ∧
    (∀ (t : Triangle) (p : Polygon),
      Triangle.intersectsPolygon m t p = Polygon.intersectsTriangle m p t) ∧
    (∀ a b : Ellipse, Ellipse.intersectsEllipse m a b = Ellipse.intersectsEllipse m b a) ∧
    (∀ (e : Ellipse) (p : Polygon), Ellipse.intersectsPolygon m e p = Polygon.intersectsEllipse m p e) ∧
    (∀ a b : Polygon, Polygon.intersectsPolygon m a b = Polygon.intersectsPolygon m b a) :=
  ⟨fun a b => compLineLine_comm a b,
    fun _ _ => rfl,
    fun _ _ => rfl,
    fun _ _ => rfl,
    fun _ _ => rfl,
    fun _ _ => rfl,
    fun a b => compRectRect_comm a b,
    fun _ _ => rfl,
    fun _ _ => rfl,
    fun _ _ => rfl,
    fun r p => linesLines_comm (Rect.asLines m r) (Polygon.asLines m p),
    fun a b => circleCircle_comm a b,
    fun _ _ => rfl,
    fun _ _ => rfl,
    fun _ _ => rfl,
    fun a b => linesLines_comm (Triangle.asLines m b) (Triangle.asLines m a),
    fun _ _ => rfl,
    fun _ _ => rfl,
    fun a b => linesLines_comm (Polygon.asLines m (Ellipse.asPolygon m a))
      (Polygon.asLines m (Ellipse.asPolygon m b)),
    fun _ _ => rfl,
    fun a b => linesLines_comm (Polygon.asLines m a) (Polygon.asLines m b)⟩

/-- C4: containment is NOT conservative with respect to intersection: the
square polygon (0,0),(8,0),(8,8),(0,8) strictly contains the rect
(2,2)-(4,4) — `contains_rect` is true — while `intersects_rect` is false,
and the two shapes are not coincident (their left extents differ). -/
theorem c4_counterexample :
    Polygon.containsRect refTrig (Polygon.new [⟨0, 0⟩, ⟨8, 0⟩, ⟨8, 8⟩, ⟨0, 8⟩])
      (Rect.new ⟨2, 2⟩ ⟨4, 4⟩) = true ∧
    Polygon.intersectsRect refTrig (Polygon.new [⟨0, 0⟩, ⟨8, 0⟩, ⟨8, 8⟩, ⟨0, 8⟩])
      (Rect.new ⟨2, 2⟩ ⟨4, 4⟩) = false ∧
    listMinX (Polygon.new [⟨0, 0⟩, ⟨8, 0⟩, ⟨8, 8⟩, ⟨0, 8⟩]).points ≠
      Rect.left (Rect.new ⟨2, 2⟩ ⟨4, 4⟩) :=
  ⟨by decide, by decide, by decide⟩

/-- C4 (amended): for `Polygon` the implication is the reverse of the claim —
every `Polygon::contains_*` conjoins `contains_points` with NOT intersecting,
so containment implies NO intersection; the circle-circle pair does satisfy
the claimed direction (strict `|r1-r2|` containment implies the
`max`-radius intersection predicate). -/
theorem c4_containment_vs_intersection :
    (∀ (m : TrigModel) (poly : Polygon) (r : Rect),
      Polygon.containsRect m poly r = true → Polygon.intersectsRect m poly r = false) ∧
    (∀ (m : TrigModel) (poly : Polygon) (l : Line),
      Polygon.containsLine m poly l = true → Polygon.intersectsLine m poly l = false) ∧
    (∀ (m : TrigModel) (poly : Polygon) (c : Circle),
      Polygon.containsCircle m poly c = true → Polygon.intersectsCircle m poly c = false) ∧
    (∀ (m : TrigModel) (poly : Polygon) (t : Triangle),
      Polygon.containsTriangle m poly t = true → Polygon.intersectsTriangle m poly t = false) ∧
    (∀ (m : TrigModel) (poly : Polygon) (e : Ellipse),
      Polygon.containsEllipse m poly e = true → Polygon.intersectsEllipse m poly e = false) ∧
    (∀ (m : TrigModel) (poly other : Polygon),
      Polygon.containsPolygon m poly other = true →
        Polygon.intersectsPolygon m poly other = false) ∧
    (∀ c1 c2 : Circle,
      Circle.containsCircle c1 c2 = true → Circle.intersectsCircle c1 c2 = true) := by
  refine ⟨?_, ?_, ?_, ?_, ?_, ?_, ?_⟩
  · intro m poly r h
    simp only [Polygon.containsRect, Bool.and_eq_true, Bool.not_eq_true'] at h
    exact h.2
  · intro m poly l h
    simp only [Polygon.containsLine, Bool.and_eq_true, Bool.not_eq_true'] at h
    exact h.2
  · intro m poly c h
    simp only [Polygon.containsCircle, Bool.and_eq_true, Bool.not_eq_true'] at h
    exact h.2
  · intro m poly t h
    simp only [Polygon.containsTriangle, Bool.and_eq_true, Bool.not_eq_true'] at h
    exact h.2
  · intro m poly e h
    simp only [Polygon.containsEllipse, Bool.and_eq_true, Bool.not_eq_true'] at h
    exact h.2
  · intro m poly other h
    simp only [Polygon.containsPolygon, Bool.and_eq_true, Bool.not_eq_true'] at h
    exact h.2
  · intro c1 c2 h
    simp only [Circle.containsCircle, decide_eq_true_eq] at h
    simp only [Circle.intersectsCircle, decide_eq_true_eq]
    rw [Coord.distance_comm] at h
    omega

/-- C4 witness: the polygon conjunct applied at the concrete square/rect pair
and the circle conjunct at nested circles of radius 10 and 2. -/
theorem c4_containment_vs_intersection_witness :
    Polygon.intersectsRect refTrig (Polygon.new [⟨0, 0⟩, ⟨8, 0⟩, ⟨8, 8⟩, ⟨0, 8⟩])
      (Rect.new ⟨3, 3⟩ ⟨5, 5⟩) = false ∧
    Circle.intersectsCircle (Circle.new ⟨0, 0⟩ 10) (Circle.new ⟨0, 0⟩ 2) = true :=
  ⟨c4_containment_vs_intersection.1 refTrig _ _ (by decide),
    c4_containment_vs_intersection.2.2.2.2.2.2 _ _ (by decide)⟩

/-- C6: the claim says a containment predicate is true exactly when the
circle's center is inside AND the boundary is not crossed; but
`Rect::contains_circle` is a distance heuristic that here counts a circle
whose center (11,5) lies OUTSIDE the rect (0,0)-(10,10) as contained. -/
theorem c6_counterexample :
    Rect.containsCircle (Rect.new ⟨0, 0⟩ ⟨10, 10⟩) (Circle.new ⟨11, 5⟩ 4) = true ∧
    Rect.containsPt (Rect.new ⟨0, 0⟩ ⟨10, 10⟩) ⟨11, 5⟩ = false :=
  ⟨by decide, by decide⟩

/-- C6 (amended): `Triangle::contains_circle` and `Rect::contains_ellipse`
return true exactly when the center is inside AND the intersection
predicate returns TRUE (the boundary IS crossed — the opposite of the
claimed "not crossed"); `Rect::contains_circle` does not examine the center
at all and is the `usize` distance heuristic
`distance(centers) - radius/2 < max(width,height)/2`. -/
theorem c6_contains_circle_ellipse :
    (∀ (m : TrigModel) (t : Triangle) (c : Circle),
      Triangle.containsCircle m t c =
        (Triangle.containsPt t c.center && Triangle.intersectsCircle m t c)) ∧
    (∀ (m : TrigModel) (r : Rect) (e : Ellipse),
      Rect.containsEllipse m r e =
        (Rect.containsPt r e.center && Rect.intersectsEllipse m r e)) ∧
    (∀ (r : Rect) (c : Circle),
      Rect.containsCircle r c =
        decide (r.center.distance c.center - c.radius / 2 < max r.width r.height / 2)) := by
  refine ⟨?_, ?_, fun _ _ => rfl⟩
  · intro m t c
    by_cases h : Triangle.containsPt t c.center <;> simp [Triangle.containsCircle, h]
  · intro m r e
    by_cases h : Rect.containsPt r e.center <;> simp [Rect.containsEllipse, h]

/-! ## Tagged union and runtime dispatch (src/shape_box.rs, src/lib.rs) -/

/-- Rust `ShapeBox`: the closed sum over the six concrete kinds. -/
inductive ShapeBox where
  | line (l : Line)
  | rect (r : Rect)
  | triangle (t : Triangle)
  | circle (c : Circle)
  | ellipse (e : Ellipse)
  | polygon (p : Polygon)

/-- The possible concrete types behind a `&dyn Shape` argument: one of the
six kinds, a `ShapeBox`, or any other user `Shape` implementation (every
downcast fails on it), modelled by `unsupported`. -/
inductive AnyShape where
  | line (l : Line)
  | rect (r : Rect)
  | triangle (t : Triangle)
  | polygon (p : Polygon)
  | circle (c : Circle)
  | ellipse (e : Ellipse)
  | shapeBox (sb : ShapeBox)
  | unsupported

/-- The bound `ContainsShape` methods of the receiver (the `self` side of
`contains_shape`), one typed predicate per concrete kind. -/
structure ContainsOps where
  line : Line → Bool
  rect : Rect → Bool
  triangle : Triangle → Bool
  polygon : Polygon → Bool
  circle : Circle → Bool
  ellipse : Ellipse → Bool

/-- The bound `IntersectsShape` methods of the receiver (the `self` side of
`intersects_shape`). -/
structure IntersectsOps where
  line : Line → Bool
  rect : Rect → Bool
  triangle : Triangle → Bool
  polygon : Polygon → Bool
  circle : Circle → Bool
  ellipse : Ellipse → Bool

/-- Rust `IntersectsContains::contains_shape`: try each concrete downcast in the
source's order (Line, Rect, Triangle, Polygon, Circle, Ellipse, ShapeBox),
dispatch to the matching typed predicate, unwrap a `ShapeBox` by matching
its variant, and fall through to `None` for an unsupported `Shape`. -/
def containsShape (ops : ContainsOps) : AnyShape → Option Bool
  | .line l => some (ops.line l)
  | .rect r => some (ops.rect r)
  | .triangle t => some (ops.triangle t)
  | .polygon p => some (ops.polygon p)
  | .circle c => some (ops.circle c)
  | .ellipse e => some (ops.ellipse e)
  | .shapeBox sb => some (match sb with
      | .line l => ops.line l
      | .rect r => ops.rect r
      | .triangle t => ops.triangle t
      | .circle c => ops.circle c
      | .ellipse e => ops.ellipse e
      | .polygon p => ops.polygon p)
  | .unsupported => none

/-- Rust `IntersectsContains::intersects_shape`, same dispatch structure. -/
def intersectsShape (ops : IntersectsOps) : AnyShape → Option Bool
  | .line l => some (ops.line l)
  | .rect r => some (ops.rect r)
  | .triangle t => some (ops.triangle t)
  | .polygon p => some (ops.polygon p)
  | .circle c => some (ops.circle c)
  | .ellipse e => some (ops.ellipse e)
  | .shapeBox sb => some (match sb with
      | .line l => ops.line l
      | .rect r => ops.rect r
      | .triangle t => ops.triangle t
      | .circle c => ops.circle c
      | .ellipse e => ops.ellipse e
      | .polygon p => ops.polygon p)
  | .unsupported => none

/-- C9: `contains_shape` and `intersects_shape` return `Some` of the matching
typed predicate for every operand that is one of the six concrete kinds or a
`ShapeBox` wrapping one, and return `None` exactly when the operand's
concrete kind cannot be determined (an unsupported `Shape` implementation),
for every receiver (every family of typed predicates). -/
theorem c9_shape_dispatch (cops : ContainsOps) (iops : IntersectsOps) :
    (∀ s : AnyShape, containsShape cops s = none ↔ s = AnyShape.unsupported) ∧
    (∀ s : AnyShape, intersectsShape iops s = none ↔ s = AnyShape.unsupported) ∧
    (∀ l : Line, containsShape cops (AnyShape.line l) = some (cops.line l) ∧
      containsShape cops (AnyShape.shapeBox (ShapeBox.line l)) = some (cops.line l) ∧
      intersectsShape iops (AnyShape.line l) = some (iops.line l) ∧
      intersectsShape iops (AnyShape.shapeBox (ShapeBox.line l)) = some (iops.line l)) ∧
    (∀ r : Rect, containsShape cops (AnyShape.rect r) = some (cops.rect r) ∧
      containsShape cops (AnyShape.shapeBox (ShapeBox.rect r)) = some (cops.rect r) ∧
      intersectsShape iops (AnyShape.rect r) = some (iops.rect r) ∧
      intersectsShape iops (AnyShape.shapeBox (ShapeBox.rect r)) = some (iops.rect r)) ∧
    (∀ t : Triangle, containsShape cops (AnyShape.triangle t) = some (cops.triangle t) ∧
      containsShape cops (AnyShape.shapeBox (ShapeBox.triangle t)) = some (cops.triangle t) ∧
      intersectsShape iops (AnyShape.triangle t) = some (iops.triangle t) ∧
      intersectsShape iops (AnyShape.shapeBox (ShapeBox.triangle t)) = some (iops.triangle t)) ∧
    (∀ p : Polygon, containsShape cops (AnyShape.polygon p) = some (cops.polygon p) ∧
      containsShape cops (AnyShape.shapeBox (ShapeBox.polygon p)) = some (cops.polygon p) ∧
      intersectsShape iops (AnyShape.polygon p) = some (iops.polygon p) ∧
      intersectsShape iops (AnyShape.shapeBox (ShapeBox.polygon p)) = some (iops.polygon p)) ∧
    (∀ c : Circle, containsShape cops (AnyShape.circle c) = some (cops.circle c) ∧
      containsShape cops (AnyShape.shapeBox (ShapeBox.circle c)) = some (cops.circle c) ∧
      intersectsShape iops (AnyShape.circle c) = some (iops.circle c) ∧
      intersectsShape iops (AnyShape.shapeBox (ShapeBox.circle c)) = some (iops.circle c)) ∧
    (∀ e : Ellipse, containsShape cops (AnyShape.ellipse e) = some (cops.ellipse e) ∧
      containsShape cops (AnyShape.shapeBox (ShapeBox.ellipse e)) = some (cops.ellipse e) ∧
      intersectsShape iops (AnyShape.ellipse e) = some (iops.ellipse e) ∧
      intersectsShape iops (AnyShape.shapeBox (ShapeBox.ellipse e)) = some (iops.ellipse e)) := by
  refine ⟨?_, ?_, fun _ => ⟨rfl, rfl, rfl, rfl⟩, fun _ => ⟨rfl, rfl, rfl, rfl⟩,
    fun _ => ⟨rfl, rfl, rfl, rfl⟩, fun _ => ⟨rfl, rfl, rfl, rfl⟩,
    fun _ => ⟨rfl, rfl, rfl, rfl⟩, fun _ => ⟨rfl, rfl, rfl, rfl⟩⟩
  · intro s
    cases s <;> simp [containsShape]
  · intro s
    cases s <;> simp [intersectsShape]

end GShapes
